import Mathlib

/-!
# Shallow embedding of the `automations` sync scripts

This file embeds the data model and the algorithms of the three Python
scripts `sync_wallapop_to_sheets.py`, `sync_vinted_to_sheets.py` and
`sync_etsy_to_sheets.py` as executable Lean definitions, and proves (or
refutes) the frozen claims about them.

Modelling conventions:
* Python dictionaries over string keys/values are association lists
  (`Automations.Dict`), keys unique, insertion-ordered.
* `json.loads` results are values of the inductive `Automations.Json`;
  a parse error (`json.JSONDecodeError`) is modelled as `none` at the
  call sites that receive raw block text.  JSON numbers are modelled as
  integers (the fields the scripts read are strings or integers).
* Browser pages are structures holding, for each CSS-selector query the
  script performs, the text that query would return.
* `re.search` of the two concrete price patterns and of the listing-id
  patterns is implemented directly with the leftmost-match,
  greedy-with-backtracking semantics of the Python `re` module,
  specialised to those patterns.  `\d` and case-insensitivity are
  modelled over ASCII (the scripts' inputs of interest are covered).
* `time.sleep`/`random` only affect timing; wait amounts are modelled
  as returned rational numbers where a claim is about them.
-/

set_option linter.unusedVariables false

namespace Automations

/-- Decimal rendering of a natural number (fuel-based, so that it
evaluates by kernel reduction). -/
def natToStrAux : Nat → Nat → List Char → List Char
  | 0, _, acc => acc
  | fuel + 1, n, acc =>
    let d := Char.ofNat (48 + n % 10)
    if n < 10 then d :: acc else natToStrAux fuel (n / 10) (d :: acc)

/-- Decimal rendering of a natural number. -/
def natToStr (n : Nat) : String := (natToStrAux (n + 1) n []).asString

/-- Python `str(i)` for an integer. -/
def intToStr (i : Int) : String :=
  if i < 0 then "-" ++ natToStr i.natAbs else natToStr i.natAbs

/-- JSON values, as produced by `json.loads`.  Numbers are modelled as
integers; the fields the scripts consume are strings, objects or lists. -/
inductive Json where
  | null
  | bool (b : Bool)
  | num (n : Int)
  | str (s : String)
  | arr (xs : List Json)
  | obj (fields : List (String × Json))
deriving Repr

/-- Python `d.get(key)` on a JSON object (`None`, i.e. `none`, when the key
is absent or the value is not an object; call sites that would raise
`AttributeError` on non-objects handle that case explicitly). -/
def Json.get : Json → String → Option Json
  | .obj fs, k => (fs.find? (fun p => p.1 == k)).map (·.2)
  | _, _ => none

/-- Python truthiness of a JSON value. -/
def Json.truthy : Json → Bool
  | .null => false
  | .bool b => b
  | .num n => n != 0
  | .str s => s != ""
  | .arr xs => !xs.isEmpty
  | .obj fs => !fs.isEmpty

/-- Python `a or b` on JSON values. -/
def Json.orTruthy (a b : Json) : Json := if a.truthy then a else b

/-- Python `str(x)` for the JSON values the scripts stringify
(strings, numbers, booleans, `None`). -/
def Json.toStr : Json → String
  | .null => "None"
  | .bool b => if b then "True" else "False"
  | .num n => intToStr n
  | .str s => s
  | .arr _ => ""
  | .obj _ => ""

/-- `node.get(key, "")` where the scripts treat the result as a string. -/
def Json.getStr (j : Json) (k : String) : String :=
  match j.get k with
  | some (.str s) => s
  | _ => ""

/-- A Python `dict[str, str]`: association list, unique keys, insertion
order preserved. -/
abbrev Dict := List (String × String)

def Dict.get (d : Dict) (k : String) : Option String :=
  (List.find? (fun p => p.1 == k) d).map (·.2)

/-- Python `d.get(k, "")`. -/
def Dict.getD (d : Dict) (k : String) : String := (d.get k).getD ""

def Dict.isEmpty (d : Dict) : Bool := List.isEmpty d

/-- Python dict merge `{**a, **b}` (entries of `b` win on key collision),
modelled up to lookup: entries of `a` whose key also occurs in `b` are
replaced by `b`'s entry. -/
def Dict.merge (a b : Dict) : Dict :=
  (List.filter (fun p => (b.get p.1).isNone) a) ++ b

/-- Contiguous-sublist test over char lists. -/
def charsInfix (needle : List Char) : List Char → Bool
  | [] => needle.isEmpty
  | c :: cs => needle.isPrefixOf (c :: cs) || charsInfix needle cs

/-- Python `needle in hay` for strings. -/
def strContains (hay needle : String) : Bool :=
  charsInfix needle.toList hay.toList

/-- Python `str.lower()` (ASCII model). -/
def strLowerAscii (s : String) : String := (s.toList.map Char.toLower).asString

/-- Python `str.upper()` (ASCII model). -/
def strUpperAscii (s : String) : String := (s.toList.map Char.toUpper).asString

/-- Python `s.split("?")[0]`. -/
def stripQuery (s : String) : String := (s.toList.takeWhile (fun c => c != '?')).asString

/-- Python `s.rstrip("/")`. -/
def dropTrailingSlashes (s : String) : String :=
  ((s.toList.reverse.dropWhile (· == '/')).reverse).asString

/-- Python `s.split(sep)` for a one-character separator. -/
def charSplit (sep : Char) : List Char → List (List Char)
  | [] => [[]]
  | c :: cs =>
    if c == sep then [] :: charSplit sep cs
    else
      match charSplit sep cs with
      | g :: gs => (c :: g) :: gs
      | [] => [[c]]

/-- Python `sep.join(xs)`. -/
def joinSep (sep : String) : List String → String
  | [] => ""
  | x :: rest => rest.foldl (fun acc y => acc ++ sep ++ y) x

/-- `re` character class `\d` (ASCII model, as in the scripts' inputs). -/
def isDig (c : Char) : Bool := c.isDigit

/-- `re` character class `\s` (ASCII model). -/
def isSpc (c : Char) : Bool :=
  c == ' ' || c == '\t' || c == '\n' || c == '\r' || c == '\x0b' || c == '\x0c'

/-- The character class `[.\s]` of the price patterns (thousands separator). -/
def isSep (c : Char) : Bool := c == '.' || isSpc c

/-- The character class `[.,]` of the price patterns (decimal separator). -/
def isDec (c : Char) : Bool := c == '.' || c == ','

/-- First `some` produced by `f` along `l` (backtracking combinator:
candidate lists are ordered by the regex engine's preference). -/
def firstSome {α β : Type} : List α → (α → Option β) → Option β
  | [], _ => none
  | a :: as, f =>
    match f a with
    | some b => some b
    | none => firstSome as f

/-- Exactly `k` characters satisfying `isDig`, or `none`. -/
def takeDigits : Nat → List Char → Option (List Char × List Char)
  | 0, cs => some ([], cs)
  | _ + 1, [] => none
  | k + 1, c :: cs =>
    if isDig c then (takeDigits k cs).map (fun p => (c :: p.1, p.2)) else none

/-- Candidates for `\d{1,3}`, greedy order (3, then 2, then 1). -/
def digitCands (cs : List Char) : List (List Char × List Char) :=
  [3, 2, 1].filterMap (fun k => takeDigits k cs)

/-- One repetition of `[.\s]\d{3}`. -/
def sepGroup : List Char → Option (List Char × List Char)
  | c :: cs =>
    if isSep c then (takeDigits 3 cs).map (fun p => (c :: p.1, p.2)) else none
  | [] => none

/-- Candidates for `(?:[.\s]\d{3})*`, greedy order (most repetitions
first).  Each repetition consumes four characters, so the input length
bounds the repetition count (`fuel`). -/
def repsCands : Nat → List Char → List (List Char × List Char)
  | 0, cs => [([], cs)]
  | fuel + 1, cs =>
    match sepGroup cs with
    | some (g, r) => ((repsCands fuel r).map (fun p => (g ++ p.1, p.2))) ++ [([], cs)]
    | none => [([], cs)]

/-- Candidates for `(?:[.,]\d{1,2})?`, greedy order (two digits, one
digit, then absent). -/
def decCands : List Char → List (List Char × List Char)
  | [] => [([], [])]
  | c :: cs =>
    (if isDec c then
      [2, 1].filterMap (fun k => (takeDigits k cs).map (fun p => (c :: p.1, p.2)))
     else []) ++ [([], c :: cs)]

/-- Candidates for the numeric token
`\d{1,3}(?:[.\s]\d{3})*(?:[.,]\d{1,2})?` in the engine's preference
order. -/
def numCands (cs : List Char) : List (List Char × List Char) :=
  (digitCands cs).flatMap (fun d =>
    (repsCands d.2.length d.2).flatMap (fun g =>
      (decCands g.2).map (fun o => (d.1 ++ g.1 ++ o.1, o.2))))

/-- Candidates for `\s*`, greedy order (longest first). -/
def spaceCands : List Char → List (List Char × List Char)
  | [] => [([], [])]
  | c :: cs =>
    if isSpc c then ((spaceCands cs).map (fun p => (c :: p.1, p.2))) ++ [([], c :: cs)]
    else [([], c :: cs)]

/-- Case-insensitive literal token match (ASCII case model); returns the
actually matched characters. -/
def ciTok : List Char → List Char → Option (List Char × List Char)
  | [], cs => some ([], cs)
  | _ :: _, [] => none
  | t :: ts, c :: cs =>
    if c.toLower == t.toLower then (ciTok ts cs).map (fun p => (c :: p.1, p.2)) else none

/-- Python `str.strip()` (whitespace model). -/
def pyStrip (cs : List Char) : List Char :=
  ((cs.dropWhile isSpc).reverse.dropWhile isSpc).reverse

/-- Python `str.strip()` on a string. -/
def pyStripStr (s : String) : String := (pyStrip s.toList).asString

/-- The characters deleted by the value normalisation of
`parse_price_currency_from_text` (`" "`, `" "`, `"."` are removed;
everything else is kept). -/
def keepValChar (c : Char) : Bool := !(c == ' ' || c == '\u202F' || c == '.')

namespace Vinted

/-- The currency alternation of `PRICE_PATTERNS`, in source order. -/
def CUR_TOKENS : List String :=
  ["€", "EUR", "$", "USD", "£", "GBP", "zł", "PLN", "Kč", "CZK",
   "Ft", "HUF", "lei", "RON", "CHF", "SEK", "NOK", "DKK"]

/-- Candidates for the currency alternation at the current position. -/
def curCands (cs : List Char) : List (List Char × List Char) :=
  CUR_TOKENS.filterMap (fun tok => ciTok tok.toList cs)

/-- `PRICE_PATTERNS[0]` (`NUM \s* CUR`) matched at the current position;
returns the two groups `(number, currency)`. -/
def matchP1 (cs : List Char) : Option (List Char × List Char) :=
  firstSome (numCands cs) (fun n =>
    firstSome (spaceCands n.2) (fun s =>
      firstSome (curCands s.2) (fun c => some (n.1, c.1))))

/-- `PRICE_PATTERNS[1]` (`CUR \s* NUM`) matched at the current position;
returns the two groups `(currency, number)`. -/
def matchP2 (cs : List Char) : Option (List Char × List Char) :=
  firstSome (curCands cs) (fun c =>
    firstSome (spaceCands c.2) (fun s =>
      firstSome (numCands s.2) (fun n => some (c.1, n.1))))

/-- `pat.search`: try the pattern at each start position, left to right. -/
def searchList (m : List Char → Option (List Char × List Char)) :
    List Char → Option (List Char × List Char)
  | [] => m []
  | c :: cs =>
    match m (c :: cs) with
    | some g => some g
    | none => searchList m cs

/-- `CURRENCY_MAP` of `sync_vinted_to_sheets.py`, in source order. -/
def CURRENCY_MAP : List (String × String) :=
  [("€", "EUR"), ("EUR", "EUR"),
   ("$", "USD"), ("USD", "USD"),
   ("£", "GBP"), ("GBP", "GBP"),
   ("zł", "PLN"), ("PLN", "PLN"),
   ("Kč", "CZK"), ("CZK", "CZK"),
   ("Ft", "HUF"), ("HUF", "HUF"),
   ("lei", "RON"), ("RON", "RON"),
   ("CHF", "CHF"),
   ("SEK", "SEK"), ("NOK", "NOK"), ("DKK", "DKK")]

/-- `CURRENCY_MAP.get(k)` / `k in CURRENCY_MAP`. -/
def currencyMapGet (k : String) : Option String :=
  (CURRENCY_MAP.find? (fun p => p.1 == k)).map (·.2)

/-- The domain→currency table of `default_currency_for_domain`. -/
def DOMAIN_CURRENCY : List (String × String) :=
  [("es", "EUR"), ("fr", "EUR"), ("de", "EUR"), ("it", "EUR"), ("pt", "EUR"),
   ("nl", "EUR"), ("be", "EUR"), ("ie", "EUR"), ("lt", "EUR"), ("lv", "EUR"), ("ee", "EUR"),
   ("pl", "PLN"), ("cz", "CZK"), ("hu", "HUF"), ("ro", "RON"),
   ("uk", "GBP"), ("gb", "GBP"),
   ("se", "SEK"), ("dk", "DKK"), ("no", "NOK"),
   ("ch", "CHF")]

/-- The `.get(d, "EUR")` table lookup of `default_currency_for_domain`. -/
def domainCurrencyLookup (d : String) : String :=
  ((DOMAIN_CURRENCY.find? (fun p => p.1 == d)).map (·.2)).getD "EUR"

/-- `default_currency_for_domain` of `sync_vinted_to_sheets.py`. -/
def default_currency_for_domain (domain : String) : String :=
  domainCurrencyLookup (strLowerAscii (((charSplit '.' domain.toList).getLastD []).asString))

/-- The value normalisation of `parse_price_currency_from_text`:
`.replace(" ", "").replace(" ", "").replace(".", "").replace(",", ".")`
(deleting three single characters then mapping the comma; the dot produced
from a comma is not itself deleted, matching the sequential replaces). -/
def normVal (cs : List Char) : List Char :=
  (cs.filter keepValChar).map (fun c => if c == ',' then '.' else c)

/-- The shared group post-processing of `parse_price_currency_from_text`
(`a`, `b` are the two regex groups, in group order).  The `float(val)`
validation of the script is a no-op (`except: pass`) and is omitted. -/
def priceGroupsToPair (a b : List Char) (domain_hint : String) : String × String :=
  let cond := a.contains '€' || a.contains '$' || a.contains '£'
      || (currencyMapGet (strUpperAscii a.asString)).isSome
  let val_raw := if cond then b else a
  let curr_raw := (if cond then a else b).asString
  let val := (normVal val_raw).asString
  let curr :=
    match currencyMapGet curr_raw with
    | some v => v
    | none =>
      match currencyMapGet (strUpperAscii curr_raw) with
      | some v => v
      | none => ""
  let curr := if curr == "" then default_currency_for_domain domain_hint else curr
  (val, curr)

/-- The pattern loop and group handling of
`parse_price_currency_from_text` on the already-stripped text. -/
def parseStripped (t : List Char) (domain_hint : String) : String × String :=
  if t.isEmpty then ("", "")
  else
    match (searchList matchP1 t).orElse (fun _ => searchList matchP2 t) with
    | none => ("", "")
    | some (a, b) => priceGroupsToPair a b domain_hint

/-- `parse_price_currency_from_text` of `sync_vinted_to_sheets.py`. -/
def parse_price_currency_from_text (text domain_hint : String) : String × String :=
  parseStripped
    (pyStrip ((text.toList).map (fun c => if c == '\xa0' then ' ' else c))) domain_hint

/-- One output row of the Vinted script (columns of `HEADERS`). -/
structure VintedRow where
  id : String
  title : String
  price : String
  currency : String
  url : String
  brand : String
  size : String
  status : String
deriving Repr, DecidableEq

/-- The browser page of one Vinted item, reduced to the data each query of
`fetch_item_detail_with_browser` observes.  `none` in `apiResponses`
models a non-OK HTTP status or a `r.json()` failure; `none` in
`jsonldBlocks` models a `json.loads` failure on a (non-empty) block. -/
structure VintedPage where
  apiResponses : List (Option Json)
  jsonldBlocks : List (Option Json)
  metas : String → Option String
  pageTitle : String
  priceTestIdTexts : List String
  priceClassTexts : List String
  spanDivTexts : List String
  attrMap : Dict

/-- A Vinted page on which every extraction source is empty. -/
def emptyVintedPage : VintedPage where
  apiResponses := [none, none]
  jsonldBlocks := []
  metas := fun _ => none
  pageTitle := ""
  priceTestIdTexts := []
  priceClassTexts := []
  spanDivTexts := []
  attrMap := []

/-- The body of the API attempt of `fetch_item_detail_with_browser`:
given a parsed JSON response, either a complete row (the early `return`)
or `none` (fall through to the next URL). -/
def vintedApiRow (data : Json) (item_id domain : String) : Option VintedRow :=
  let obj := Json.orTruthy
    (Json.orTruthy ((data.get "item").getD .null) ((data.get "data").getD .null)) data
  match h : obj with
  | .obj _ =>
    let price_field := (obj.get "price").getD (.str "")
    let pv_cc : String × String :=
      match price_field with
      | .obj _ =>
        (((price_field.get "amount").getD (.str "")).toStr,
         ((price_field.get "currency_code").getD (.str "")).toStr)
      | _ =>
        (price_field.toStr,
         (Json.orTruthy ((obj.get "currency").getD .null)
            ((obj.get "currency_code").getD (.str ""))).toStr)
    let uj := (obj.get "url").getD .null
    let url_item :=
      if uj.truthy then uj.toStr
      else "https://www.vinted." ++ domain ++ "/items/" ++ item_id
    some
      { id := ((obj.get "id").getD (.str item_id)).toStr
        title := obj.getStr "title"
        price := pv_cc.1
        currency := if pv_cc.2 != "" then pv_cc.2
                    else Vinted.default_currency_for_domain domain
        url := url_item
        brand := obj.getStr "brand_title"
        size := obj.getStr "size_title"
        status := obj.getStr "status" }
  | _ => none

/-- The loop over the two API endpoints (attempt 1 of the cascade). -/
def vintedApiAttempts (rs : List (Option Json)) (item_id domain : String) :
    Option VintedRow :=
  firstSome rs (fun r => r.bind (fun data => vintedApiRow data item_id domain))

/-- The JSON-LD scan of `fetch_item_detail_with_browser` (attempt 2),
threading `(title, price_val, currency, brand)`.  An invalid block
(`none`) raises inside the surrounding `try`, which wraps the whole
loop, so it aborts the scan with the state accumulated so far. -/
def vintedJsonLd :
    List (Option Json) → String → String → String → String →
    String × String × String × String
  | [], t, p, c, b => (t, p, c, b)
  | blk :: rest, t, p, c, b =>
    match blk with
    | none => (t, p, c, b)
    | some ld =>
      match ld with
      | .obj _ =>
        let t := if t == "" then (let n := ld.getStr "name"; if n != "" then n else t)
                 else t
        let offers := Json.orTruthy ((ld.get "offers").getD .null) (.obj [])
        let pc : String × String :=
          match offers with
          | .obj _ =>
            ((if p != "" then p else offers.getStr "price"),
             (if c != "" then c else offers.getStr "priceCurrency"))
          | _ => (p, c)
        let b := if b == "" then
            (match (ld.get "brand").getD .null with
             | .obj _ =>
               let n := ((ld.get "brand").getD .null).getStr "name"
               if n != "" then n else b
             | _ => b)
          else b
        if pc.1 != "" && pc.2 != "" then (t, pc.1, pc.2, b)
        else vintedJsonLd rest t pc.1 pc.2 b
      | _ => vintedJsonLd rest t p c b

/-- `_pick_attr` of `sync_vinted_to_sheets.py`. -/
def pick_attr (attrMap : Dict) (variants : List String) : String :=
  let vs := variants.map strLowerAscii
  match attrMap.find? (fun p => vs.contains (strLowerAscii p.1)) with
  | some p => p.2
  | none =>
    match attrMap.find? (fun p =>
        vs.any (fun v => (strLowerAscii p.1).startsWith v
          || strContains (strLowerAscii p.1) v)) with
    | some p => p.2
    | none => ""

/-- The scan loop of `_price_from_dom`: first candidate text whose parse
yields a value or a currency. -/
def firstPriceText (hint : String) : List String → String × String
  | [] => ("", "")
  | t :: ts =>
    let vc := Vinted.parse_price_currency_from_text t hint
    if vc.1 != "" || vc.2 != "" then vc else firstPriceText hint ts

/-- `_price_from_dom` of `sync_vinted_to_sheets.py` (attempt 4). -/
def price_from_dom (page : VintedPage) (domain_hint : String) : String × String :=
  let texts := page.priceTestIdTexts ++ page.priceClassTexts
  let texts := if texts.any (fun t => t != "") then texts
               else texts ++ page.spanDivTexts
  firstPriceText domain_hint texts

/-- `fetch_item_detail_with_browser` of `sync_vinted_to_sheets.py`:
API attempt, then JSON-LD, metatags, DOM price scan, attribute map, and
the domain-default currency fallback. -/
def fetch_item_detail_with_browser (page : VintedPage) (item_id domain : String) :
    VintedRow :=
  match vintedApiAttempts page.apiResponses item_id domain with
  | some row => row
  | none =>
    let item_url := "https://www.vinted." ++ domain ++ "/items/" ++ item_id
    let s := vintedJsonLd page.jsonldBlocks "" "" "" ""
    let title := s.1
    let price_val := s.2.1
    let currency := s.2.2.1
    let brand := s.2.2.2
    let title := if title == "" then
        (let m := (page.metas "og:title").getD ""
         if m != "" then m else page.pageTitle)
      else title
    let price_val := if price_val == "" then
        (let m := (page.metas "product:price:amount").getD ""
         if m != "" then m else (page.metas "og:price:amount").getD "")
      else price_val
    let currency := if currency == "" then
        (let m := (page.metas "product:price:currency").getD ""
         if m != "" then m else (page.metas "og:price:currency").getD "")
      else currency
    let pc :=
      if price_val == "" || currency == "" then
        let vc := price_from_dom page domain
        ((if price_val != "" then price_val else vc.1),
         (if currency != "" then currency else vc.2))
      else (price_val, currency)
    let price_val := pc.1
    let currency := pc.2
    let size := ""
    let status := ""
    let brand := if brand == "" then
        pick_attr page.attrMap ["marca", "brand", "marque", "marke", "merk", "marca de"]
      else brand
    let size := if size == "" then
        pick_attr page.attrMap ["talla", "size", "taille", "größe", "maat", "taglia", "rozmiar"]
      else size
    let status := if status == "" then
        pick_attr page.attrMap ["estado", "condition", "état", "zustand", "condición"]
      else status
    let currency := if currency == "" then Vinted.default_currency_for_domain domain
                    else currency
    { id := item_id
      title := pyStripStr title
      price := pyStripStr price_val
      currency := pyStripStr currency
      url := item_url
      brand := pyStripStr brand
      size := pyStripStr size
      status := pyStripStr status }

/-- `\d+(?:-|$)` after the literal `items/` of `ITEM_ID_RE`: a maximal
non-empty digit run followed by `-` or the end of the string (a shorter
run would leave a digit next, failing both alternatives, so only the
maximal run can match). -/
def digitsThenDashOrEnd (cs : List Char) : Option String :=
  let ds := cs.takeWhile isDig
  if ds.isEmpty then none
  else
    match cs.drop ds.length with
    | [] => some ds.asString
    | c :: _ => if c == '-' then some ds.asString else none

/-- `ITEM_ID_RE` matched with its `(?:^|/)` anchor already consumed. -/
def itemsIdAt (cs : List Char) : Option String :=
  if ['i', 't', 'e', 'm', 's', '/'].isPrefixOf cs then digitsThenDashOrEnd (cs.drop 6)
  else none

/-- `ITEM_ID_RE.search`: at each position, try the `^` alternative (start
only), then the `/` alternative, then move right. -/
def itemIdSearch : List Char → Bool → Option String
  | cs, atStart =>
    match (if atStart then itemsIdAt cs else none) with
    | some s => some s
    | none =>
      match cs with
      | [] => none
      | c :: rest =>
        match (if c == '/' then itemsIdAt rest else none) with
        | some s => some s
        | none => itemIdSearch rest false

/-- `ITEM_ID_RE.search(href)` returning the captured item id. -/
def vintedItemId (href : String) : Option String := itemIdSearch href.toList true

/-- One pass over the hrefs of a scroll iteration of
`collect_item_ids_with_browser`: skip falsy hrefs, extract ids, insert
unseen ones (set insertion modelled in insertion order), count additions. -/
def vintedAddIds (hrefs : List String) (seen : List String) : List String × Nat :=
  hrefs.foldl
    (fun acc h =>
      if h == "" then acc
      else
        match vintedItemId h with
        | some iid => if iid ∈ acc.1 then acc else (acc.1 ++ [iid], acc.2 + 1)
        | none => acc)
    (seen, 0)

/-- The scroll loop of `collect_item_ids_with_browser`.  `pages i` is the
href list the i-th iteration observes.  Returns `list(seen_ids)`
(modelled in insertion order; the script applies no sort) together with
the number of iterations executed. -/
def vintedCollectGo (pages : Nat → List String) :
    Nat → Nat → List String → Nat → List String × Nat
  | 0, i, seen, _ => (seen, i)
  | fuel + 1, i, seen, stable =>
    let sa := vintedAddIds (pages i) seen
    let stable' := if sa.2 == 0 then stable + 1 else 0
    if stable' ≥ 4 then (sa.1, i + 1)
    else vintedCollectGo pages fuel (i + 1) sa.1 stable'

/-- `collect_item_ids_with_browser` of `sync_vinted_to_sheets.py`
(the `for i in range(100)` loop with the stable-rounds counter). -/
def collect_item_ids_with_browser (pages : Nat → List String) : List String × Nat :=
  vintedCollectGo pages 100 0 [] 0

/-- The detail loop of `main()` in `sync_vinted_to_sheets.py`: no
per-item exception handling, so a failing fetch aborts the whole loop. -/
def vintedMainLoop (ids : List String) (fetch : String → Except String VintedRow) :
    Except String (List VintedRow) :=
  match ids with
  | [] => .ok []
  | i :: rest =>
    match fetch i with
    | .ok r => (vintedMainLoop rest fetch).map (fun rs => r :: rs)
    | .error e => .error e

end Vinted

/-- The `@type` test of both scripts' `parse_json_ld`
(`(isinstance(t, list) and "Product" in t) or t == "Product"`). -/
def isProductType : Json → Bool
  | .arr xs => xs.any (fun j => match j with | .str s => s == "Product" | _ => false)
  | .str s => s == "Product"
  | _ => false

/-- `data if isinstance(data, list) else [data]`. -/
def jsonNodes : Json → List Json
  | .arr xs => xs
  | j => [j]

namespace Wallapop

/-- `OUTPUT_COLUMNS` of `sync_wallapop_to_sheets.py`. -/
def OUTPUT_COLUMNS : List String :=
  ["id", "title", "price", "currency", "condition", "brand", "category",
   "location", "url", "image", "description", "seller_name", "seller_url",
   "timestamp_utc"]

/-- One output row of the Wallapop script. -/
structure WallapopRow where
  id : String
  title : String
  price : String
  currency : String
  condition : String
  brand : String
  category : String
  location : String
  url : String
  image : String
  description : String
  seller_name : String
  seller_url : String
  timestamp_utc : String
deriving Repr, DecidableEq

def rowValues (r : WallapopRow) : List String :=
  [r.id, r.title, r.price, r.currency, r.condition, r.brand, r.category,
   r.location, r.url, r.image, r.description, r.seller_name, r.seller_url,
   r.timestamp_utc]

/-- `normalize_price` of `sync_wallapop_to_sheets.py`: keep digits and
`.`/`,` (comma mapped to dot); currency is `"€"` exactly when the text
contains `€`, otherwise empty — there is no domain fallback here. -/
def normalize_price (raw : String) : String × String :=
  if raw == "" then ("", "")
  else
    let txt := pyStripStr raw
    let currency := if txt.toList.contains '€' then "€" else ""
    let digits := txt.toList.filter (fun c => isDig c || c == '.' || c == ',')
    let num := (digits.map (fun c => if c == ',' then '.' else c)).asString
    (num, currency)

/-- The detail page of one Wallapop item, reduced to the text each
selector query of `extract_with_selectors` returns, plus the JSON-LD
blocks (`none` models a `json.loads` failure). -/
structure WallapopPage where
  jsonldBlocks : List (Option Json)
  selTitle : String
  selRawPrice : String
  selDescription : String
  selImage : String
  selEstado : String
  selCondicion : String
  selBrand : String
  selCategory : String
  selLocation : String

/-- A Wallapop page on which every extraction source is empty. -/
def emptyWallapopPage : WallapopPage where
  jsonldBlocks := []
  selTitle := ""
  selRawPrice := ""
  selDescription := ""
  selImage := ""
  selEstado := ""
  selCondicion := ""
  selBrand := ""
  selCategory := ""
  selLocation := ""

/-- `extract_with_selectors` of `sync_wallapop_to_sheets.py` (all keys
are always assigned, possibly to the empty string). -/
def extract_with_selectors (page : WallapopPage) : Dict :=
  let pc := normalize_price page.selRawPrice
  [("title", page.selTitle),
   ("price", pc.1),
   ("currency", pc.2),
   ("description", page.selDescription),
   ("image", page.selImage),
   ("condition", if page.selEstado != "" then page.selEstado else page.selCondicion),
   ("brand", page.selBrand),
   ("category", page.selCategory),
   ("location", page.selLocation)]

/-- The per-`Product`-node field extraction of Wallapop's
`parse_json_ld`, key insertion order as in the source. -/
def wallapopProductDict (product : Json) : Dict :=
  let image :=
    match (product.get "image").getD .null with
    | .arr (x :: _) => x.toStr
    | .str s => s
    | _ => ""
  let offers0 := Json.orTruthy ((product.get "offers").getD .null) (.obj [])
  let offers :=
    match offers0 with
    | .arr (x :: _) => x
    | .arr [] => .obj []
    | j => j
  let price := if offers.truthy then ((offers.get "price").getD (.str "")).toStr else ""
  let currency := if offers.truthy then offers.getStr "priceCurrency" else ""
  let idv :=
    let s1 := product.getStr "sku"
    if s1 != "" then s1
    else
      let s2 := product.getStr "productID"
      if s2 != "" then s2 else ""
  let brand :=
    match (product.get "brand").getD (.str "") with
    | .obj _ => ((product.get "brand").getD (.str "")).getStr "name"
    | j => if j.truthy then j.toStr else ""
  let category :=
    match (product.get "category").getD (.str "") with
    | .arr xs => joinSep ", " (xs.map Json.toStr)
    | j => if j.truthy then j.toStr else ""
  let location :=
    match Json.orTruthy ((product.get "areaServed").getD .null)
        (Json.orTruthy ((product.get "productionPlace").getD .null) (.str "")) with
    | .obj fs => (Json.obj fs).getStr "name"
    | j => if j.truthy then j.toStr else ""
  [("title", product.getStr "name"),
   ("description", product.getStr "description"),
   ("image", image),
   ("price", price),
   ("currency", currency),
   ("url", product.getStr "url"),
   ("id", idv),
   ("brand", brand),
   ("condition", product.getStr "itemCondition"),
   ("category", category),
   ("location", location)]

/-- The node loop of Wallapop's `parse_json_ld`.  A node that is not a
dict makes `node.get` raise `AttributeError` (uncaught there) — modelled
as `none`. -/
def wallapopNodeLoop : List Json → Option Dict
  | [] => some []
  | node :: rest =>
    match node with
    | .obj _ =>
      if isProductType ((node.get "@type").getD .null) then
        some (wallapopProductDict node)
      else wallapopNodeLoop rest
    | _ => none

/-- `parse_json_ld` of `sync_wallapop_to_sheets.py` (`none` input models
a `json.JSONDecodeError`, which the function catches, returning `{}`;
`none` output models the uncaught `AttributeError` on non-dict nodes). -/
def parse_json_ld (block : Option Json) : Option Dict :=
  match block with
  | none => some []
  | some data => wallapopNodeLoop (jsonNodes data)

/-- The block loop of `fetch_item_detail`: first truthy parse wins; a
crash propagates. -/
def wallapopScanBlocks : List (Option Json) → Option Dict
  | [] => some []
  | b :: rest =>
    match parse_json_ld b with
    | none => none
    | some p => if p.isEmpty then wallapopScanBlocks rest else some p

/-- `fetch_item_detail` of `sync_wallapop_to_sheets.py`.  `none` models a
propagating exception.  Note the script computes a URL-derived
`item_id` when the JSON-LD supplied none, but never stores it in the
record (dead store), so the produced row keeps `id` from `parsed` only. -/
def fetch_item_detail (page : WallapopPage) (url seller_name seller_url now : String) :
    Option WallapopRow :=
  (wallapopScanBlocks page.jsonldBlocks).map (fun parsed =>
    let parsed :=
      if parsed.isEmpty || (parsed.get "title").getD "" == "" then
        let sel := extract_with_selectors page
        if !parsed.isEmpty then Dict.merge sel parsed else sel
      else parsed
    let _item_id :=
      let i0 := (parsed.get "id").getD ""
      if i0 == "" then
        ((charSplit '/' (dropTrailingSlashes (stripQuery url)).toList).getLastD []).asString
      else i0
    let purl := (parsed.get "url").getD ""
    let finalUrl := if purl != "" then purl else url
    { id := parsed.getD "id"
      title := parsed.getD "title"
      price := parsed.getD "price"
      currency := parsed.getD "currency"
      condition := parsed.getD "condition"
      brand := parsed.getD "brand"
      category := parsed.getD "category"
      location := parsed.getD "location"
      url := finalUrl
      image := parsed.getD "image"
      description := parsed.getD "description"
      seller_name := seller_name
      seller_url := seller_url
      timestamp_utc := now })

end Wallapop

namespace Etsy

/-- `HEADERS` of `sync_etsy_to_sheets.py`. -/
def HEADERS : List String :=
  ["id", "title", "price", "currency", "availability",
   "category", "tags", "url", "image", "description",
   "shop_name", "shop_url", "timestamp_utc"]

/-- One output row of the Etsy script. -/
structure EtsyRow where
  id : String
  title : String
  price : String
  currency : String
  availability : String
  category : String
  tags : String
  url : String
  image : String
  description : String
  shop_name : String
  shop_url : String
  timestamp_utc : String
deriving Repr, DecidableEq

def rowValues (r : EtsyRow) : List String :=
  [r.id, r.title, r.price, r.currency, r.availability, r.category, r.tags,
   r.url, r.image, r.description, r.shop_name, r.shop_url, r.timestamp_utc]

/-- `RATE_LIMIT_MARKERS` of `sync_etsy_to_sheets.py`. -/
def RATE_LIMIT_MARKERS : List String :=
  ["robot check", "verify you are a human", "are you a human", "unusual traffic"]

/-- `is_blocked` of `sync_etsy_to_sheets.py`. -/
def is_blocked (title : String) : Bool :=
  RATE_LIMIT_MARKERS.any (fun m => strContains (strLowerAscii title) m)

/-- The deterministic part of `backoff`:
`base = min(20, 3 * (2 ** (attempt - 1)))`. -/
def backoffBase (attempt : Nat) : ℚ := min 20 (3 * 2 ^ (attempt - 1))

/-- The total slept time of `backoff`: `base + random.uniform(0, 2)`,
with the jitter passed in explicitly (`0 ≤ jitter ≤ 2`). -/
def backoffWait (attempt : Nat) (jitter : ℚ) : ℚ := backoffBase attempt + jitter

/-- The goto/blocked retry loop of `fetch_item`
(`for attempt in range(1, 4)`): the number of attempts executed,
given the page title observed on each attempt. -/
def fetchItemAttempts (titles : Nat → String) : Nat :=
  if !is_blocked (titles 1) then 1
  else if !is_blocked (titles 2) then 2
  else 3

/-- The per-`Product`-node field extraction of Etsy's `parse_json_ld`,
key insertion order as in the source. -/
def etsyProductDict (node : Json) : Dict :=
  let image :=
    match (node.get "image").getD (.str "") with
    | .arr (x :: _) => x.toStr
    | .arr [] => ""
    | j => if j.truthy then j.toStr else ""
  let offers0 := Json.orTruthy ((node.get "offers").getD .null) (.obj [])
  let offers :=
    match offers0 with
    | .arr (x :: _) => x
    | .arr [] => .obj []
    | j => j
  let pca : String × String × String :=
    if offers.truthy then
      let availability := offers.getStr "availability"
      if strContains ((offers.get "@type").getD .null).toStr "AggregateOffer" then
        ((Json.orTruthy
            (Json.orTruthy ((offers.get "lowPrice").getD .null)
              ((offers.get "highPrice").getD .null)) (.str "")).toStr,
         offers.getStr "priceCurrency",
         availability)
      else
        ((Json.orTruthy ((offers.get "price").getD (.str "")) (.str "")).toStr,
         offers.getStr "priceCurrency",
         availability)
    else ("", "", "")
  let category :=
    match (node.get "category").getD .null with
    | .arr xs => joinSep " > " (xs.map Json.toStr)
    | .str s => s
    | _ => ""
  let tags :=
    match (node.get "keywords").getD .null with
    | .arr xs => joinSep ", " (xs.map Json.toStr)
    | .str s => s
    | _ => ""
  let idv :=
    (Json.orTruthy ((node.get "sku").getD .null)
      (Json.orTruthy ((node.get "productID").getD .null) (.str ""))).toStr
  [("title", node.getStr "name"),
   ("description", node.getStr "description"),
   ("image", image),
   ("price", pca.1),
   ("currency", pca.2.1),
   ("availability", pca.2.2),
   ("url", node.getStr "url"),
   ("category", category),
   ("tags", tags),
   ("id", idv)]

/-- The node loop of Etsy's `parse_json_ld` (non-dict nodes skipped). -/
def etsyNodeLoop : List Json → Dict
  | [] => []
  | node :: rest =>
    match node with
    | .obj _ =>
      if isProductType ((node.get "@type").getD .null) then etsyProductDict node
      else etsyNodeLoop rest
    | _ => etsyNodeLoop rest

/-- `parse_json_ld` of `sync_etsy_to_sheets.py` (`none` input models a
`json.JSONDecodeError`, caught there, returning `{}`). -/
def parse_json_ld (block : Option Json) : Dict :=
  match block with
  | none => []
  | some data => etsyNodeLoop (jsonNodes data)

/-- The listing detail page of one Etsy item, reduced to the data each
query of `fetch_item` / `fallback_from_dom` observes. -/
structure EtsyPage where
  pageTitle : String
  jsonldBlocks : List (Option Json)
  titleSelTexts : List String
  priceSelTexts : List String
  priceRegionText : String
  imgListing : String
  imgPalette : String
  imgFigure : String
  content : String
  breadcrumbText : String

/-- An Etsy listing page on which every extraction source is empty. -/
def emptyEtsyPage : EtsyPage where
  pageTitle := ""
  jsonldBlocks := []
  titleSelTexts := ["", "", ""]
  priceSelTexts := ["", "", "", ""]
  priceRegionText := ""
  imgListing := ""
  imgPalette := ""
  imgFigure := ""
  content := ""
  breadcrumbText := ""

/-- The character class kept by `re.sub(r"[^\d,.\-]", "", p)`. -/
def keepPriceChar (c : Char) : Bool := isDig c || c == ',' || c == '.' || c == '-'

/-- `fallback_from_dom` of `sync_etsy_to_sheets.py`: keys only present
when the corresponding selector produced something, except `image`,
which is always assigned. -/
def fallback_from_dom (page : EtsyPage) : Dict :=
  let dTitle : Dict :=
    match page.titleSelTexts.find? (fun t => t != "") with
    | some t => [("title", t)]
    | none => []
  let dPrice : Dict :=
    match page.priceSelTexts.find? (fun p => p != "") with
    | some p =>
      [("price", ((p.toList.filter keepPriceChar).map
          (fun c => if c == ',' then '.' else c)).asString)]
    | none => []
  let txt := page.priceRegionText
  let dCurrency : Dict :=
    if txt.toList.contains '€' then [("currency", "EUR")]
    else if txt.toList.contains '$' then [("currency", "USD")]
    else if txt.toList.contains '£' then [("currency", "GBP")]
    else []
  let img :=
    if page.imgListing != "" then page.imgListing
    else if page.imgPalette != "" then page.imgPalette
    else page.imgFigure
  let dAvail : Dict :=
    if strContains page.content "Sold out" || strContains page.content "Agotado" then
      [("availability", "SoldOut")]
    else []
  let dCat : Dict :=
    if page.breadcrumbText != "" then [("category", page.breadcrumbText)] else []
  dTitle ++ dPrice ++ dCurrency ++ [("image", img)] ++ dAvail ++ dCat

/-- `LISTING_ID_RE` (`/listing/(\d+)`) matched at the current position. -/
def listingIdAt (cs : List Char) : Option String :=
  if ['/', 'l', 'i', 's', 't', 'i', 'n', 'g', '/'].isPrefixOf cs then
    if ((cs.drop 9).takeWhile isDig).isEmpty then none
    else some ((cs.drop 9).takeWhile isDig).asString
  else none

/-- `LISTING_ID_RE.search`, leftmost match. -/
def listingIdSearch : List Char → Option String
  | [] => none
  | c :: cs =>
    match listingIdAt (c :: cs) with
    | some s => some s
    | none => listingIdSearch cs

/-- The JSON-LD scan of `fetch_item`: `parsed` is reassigned on every
block and the loop breaks on the first parse with a truthy `title`, so
without a break the LAST block's parse survives. -/
def etsyJsonLdScan : List (Option Json) → Dict → Dict
  | [], acc => acc
  | b :: rest, _ =>
    let p := parse_json_ld b
    if (p.get "title").getD "" != "" then p else etsyJsonLdScan rest p

/-- `fetch_item` of `sync_etsy_to_sheets.py` (data path; the blocked
retry loop only re-navigates to the same page and is modelled by
`fetchItemAttempts` for the timing claims). -/
def fetch_item (page : EtsyPage) (url shop_name shop_url now : String) : EtsyRow :=
  let parsed := etsyJsonLdScan page.jsonldBlocks []
  let parsed :=
    if (parsed.get "title").getD "" == "" then Dict.merge (fallback_from_dom page) parsed
    else parsed
  let listing_id := (parsed.get "id").getD ""
  let listing_id :=
    if listing_id == "" then (listingIdSearch url.toList).getD "" else listing_id
  let purl := (parsed.get "url").getD ""
  { id := listing_id
    title := parsed.getD "title"
    price := parsed.getD "price"
    currency := parsed.getD "currency"
    availability := parsed.getD "availability"
    category := parsed.getD "category"
    tags := parsed.getD "tags"
    url := if purl != "" then purl else url
    image := parsed.getD "image"
    description := parsed.getD "description"
    shop_name := shop_name
    shop_url := shop_url
    timestamp_utc := now }

/-- One index page of the Etsy shop, reduced to the data
`collect_shop_item_urls` observes on it:  the hrefs found (union of the
two anchor queries), the enabled state of a "next page" control, and the
shop-name selector texts. -/
structure EtsyIndexPage where
  anchors : List String
  hasNext : Bool
  shopNameTexts : List String

/-- One href of the normalise-and-add step of `collect_shop_item_urls`:
resolve a relative href against the origin, strip the query string, keep
`/listing/` URLs, add if unseen. -/
def etsyAddStep (origin : String) (acc : List String × Nat) (h : String) :
    List String × Nat :=
  if h == "" then acc
  else
    let full := if h.startsWith "http" then h
                else if h.startsWith "/" then origin ++ h
                else origin ++ "/" ++ h
    let full := stripQuery full
    if strContains full "/listing/" && !(decide (full ∈ acc.1)) then
      (acc.1 ++ [full], acc.2 + 1)
    else acc

/-- The normalise-and-add loop over one href batch of
`collect_shop_item_urls`. -/
def etsyAddUrls (origin : String) (found : List String) (urls : List String) :
    List String × Nat :=
  found.foldl (etsyAddStep origin) (urls, 0)

/-- The alternate-URL retry loop of `collect_shop_item_urls` (first page
only, when no URL was found).  Returns the updated URL set and the URL
of the page the browser is left on. -/
def etsyVariants (pages : String → EtsyIndexPage) (origin : String) :
    List String → String → List String → String → List String × String
  | [], _, urls, cur => (urls, cur)
  | v :: rest, url, urls, cur =>
    if v == url then etsyVariants pages origin rest url urls cur
    else
      let ua := etsyAddUrls origin (pages v).anchors urls
      if ua.1.length > 0 then (ua.1, v)
      else etsyVariants pages origin rest url ua.1 v

/-- The body of one iteration of the page loop of
`collect_shop_item_urls`: navigate, read the shop name on the first
page, collect and normalise the anchors, retry URL variants when the
first page yielded nothing, and read the "next page" control on the
page the browser is left on.  Returns
`(shop_name, urls, added, has_next)`. -/
def etsyCollectBody (pages : String → EtsyIndexPage) (origin shop_url : String)
    (page_num : Nat) (urls : List String) (shopName : String) :
    String × List String × Nat × Bool :=
  let url :=
    if page_num == 1 then shop_url
    else shop_url ++ (if strContains shop_url "?" then "&" else "?")
      ++ "page=" ++ natToStr page_num
  let pg := pages url
  let shopName :=
    if page_num == 1 then ((pg.shopNameTexts.find? (fun t => t != "")).getD "")
    else shopName
  let ua := etsyAddUrls origin pg.anchors urls
  let uc :=
    if page_num == 1 && ua.1.isEmpty then
      etsyVariants pages origin
        [dropTrailingSlashes shop_url ++ "?ref=seller-platform-mcnav",
         dropTrailingSlashes shop_url ++ "/?ref=seller-platform-mcnav",
         dropTrailingSlashes shop_url]
        url ua.1 url
    else (ua.1, url)
  (shopName, uc.1, ua.2, (pages uc.2).hasNext)

/-- The page loop of `collect_shop_item_urls` (`page_num` pagination,
stop when an iteration adds nothing and no "next" control is enabled,
hard cap at 50 pages). -/
def etsyCollectGo (pages : String → EtsyIndexPage) (origin shop_url : String) :
    Nat → Nat → List String → String → String × List String
  | 0, _, urls, shopName => (shopName, urls)
  | fuel + 1, page_num, urls, shopName =>
    let r := etsyCollectBody pages origin shop_url page_num urls shopName
    if r.2.2.1 == 0 && !r.2.2.2 then (r.1, r.2.1)
    else if page_num + 1 > 50 then (r.1, r.2.1)
    else etsyCollectGo pages origin shop_url fuel (page_num + 1) r.2.1 r.1

/-- `collect_shop_item_urls` of `sync_etsy_to_sheets.py`: returns
`(shop_name or "", shop_url, sorted(urls))`. -/
def collect_shop_item_urls (pages : String → EtsyIndexPage) (origin shop_url : String) :
    String × String × List String :=
  let r := etsyCollectGo pages origin shop_url 50 1 [] ""
  (r.1, shop_url, r.2.insertionSort (fun a b => a ≤ b))

/-- The per-listing loop of `run()` in `sync_etsy_to_sheets.py`: each
fetch is wrapped in `try/except`, a failure is logged and the listing is
skipped (no row is appended for it); the loop continues. -/
def etsyRunLoop (urls : List String) (fetch : String → Except String EtsyRow) :
    List EtsyRow :=
  urls.foldl
    (fun rows u =>
      match fetch u with
      | .ok r => rows ++ [r]
      | .error _ => rows)
    []

end Etsy

/-- A spreadsheet: the list of its rows (a row is the list of its cell
values; absent cells read as `""`).  `row_count` is the list length. -/
abbrev Sheet := List (List String)

/-- `ws.update(range_name=f"A{startRow}:...", values=...)`, 1-based rows,
capacity having been ensured by the caller. -/
def updateRange (s : Sheet) (startRow : Nat) (values : List (List String)) : Sheet :=
  s.take (startRow - 1) ++ values ++ s.drop (startRow - 1 + values.length)

/-- `ws.clear()`: all values cleared, the grid keeps its row count. -/
def clearValues (s : Sheet) : Sheet := s.map (fun _ => [])

namespace Etsy

/-- `write_headers` of `sync_etsy_to_sheets.py`: `ws.clear()` then write
the header row. -/
def write_headers (s : Sheet) : Sheet := updateRange (clearValues s) 1 [HEADERS]

/-- The `need`/`add_rows` capacity handling of `write_rows`
(`need = len(values) - (ws.row_count - 1)`; grow by `need` when
positive). -/
def etsyEnsureCapacity (s : Sheet) (l : Nat) : Sheet :=
  if ((l : Int) - ((s.length : Int) - 1)) > 0 then
    s ++ List.replicate ((l : Int) - ((s.length : Int) - 1)).toNat ([] : List String)
  else s

/-- `write_rows` of `sync_etsy_to_sheets.py`: grow the grid if needed,
then overwrite the block starting at row 2.  Rows beyond the block are
left as they are. -/
def write_rows (s : Sheet) (rows : List EtsyRow) : Sheet :=
  if rows.isEmpty then s
  else updateRange (etsyEnsureCapacity s (rows.map rowValues).length) 2 (rows.map rowValues)

/-- The Sync-Target effect of one `run()` of the Etsy script:
`write_headers` at the start, `write_rows` with the collected rows at
the end. -/
def run_writes (prev : Sheet) (items : List EtsyRow) : Sheet :=
  write_rows (write_headers prev) items

end Etsy

namespace Wallapop

/-- `ws.row_values(1)` (the sheets used here carry no trailing blank
cells). -/
def row_values1 (s : Sheet) : List String := s.headD []

/-- The header handling of `get_sheet` in `sync_wallapop_to_sheets.py`:
if row 1 differs from `OUTPUT_COLUMNS`, resize to 2 rows and rewrite the
header row; otherwise leave the sheet untouched. -/
def get_sheet (s : Sheet) : Sheet :=
  if row_values1 s == OUTPUT_COLUMNS then s
  else updateRange (s.take 2) 1 [OUTPUT_COLUMNS]

/-- `ws.append_rows(values)`: append below the existing data region (the
sheets used here carry no trailing blank rows). -/
def append_rows (s : Sheet) (values : List (List String)) : Sheet := s ++ values

/-- `write_rows` of `sync_wallapop_to_sheets.py`: append-only. -/
def write_rows (s : Sheet) (rows : List WallapopRow) : Sheet :=
  if rows.isEmpty then s else append_rows s (rows.map rowValues)

/-- The Sync-Target effect of one `run()` of the Wallapop script with a
single batch of rows: `get_sheet` (header check), then an appending
`write_rows`.  Nothing ever clears previously written data rows. -/
def run_writes (prev : Sheet) (items : List WallapopRow) : Sheet :=
  write_rows (get_sheet prev) items

end Wallapop

/-! ## Concrete instances used by the claim theorems -/

/-- Rendering of a normalised `(value, currency)` pair back to price text
(the "rendering of its own output" of the idempotence claim). -/
def renderPrice (p : String × String) : String := p.1 ++ " " ++ p.2

/-- A Wallapop detail page whose only extractable datum is the bare
numeric price text `"25"` (no currency symbol), as shown by e.g. a
`.MoneyAmount__amount` node that carries the amount only. -/
def wallapopBarePricePage : Wallapop.WallapopPage :=
  { Wallapop.emptyWallapopPage with selTitle := "Camiseta", selRawPrice := "25" }

/-- An Etsy listing page whose JSON-LD block is the minimal `Product`
node `{"@type": "Product"}` (every extracted field empty) while the DOM
fallback can see a title and a price. -/
def etsyEmptyProductPage : Etsy.EtsyPage where
  pageTitle := ""
  jsonldBlocks := [some (.obj [("@type", .str "Product")])]
  titleSelTexts := ["B", "", ""]
  priceSelTexts := ["10", "", "", ""]
  priceRegionText := ""
  imgListing := ""
  imgPalette := ""
  imgFigure := ""
  content := ""
  breadcrumbText := ""

/-- A sample successfully fetched Etsy row. -/
def etsyOkRow : Etsy.EtsyRow where
  id := "2"
  title := "ok"
  price := "10"
  currency := "EUR"
  availability := ""
  category := ""
  tags := ""
  url := "https://www.etsy.com/listing/2-ok"
  image := ""
  description := ""
  shop_name := "S"
  shop_url := "SU"
  timestamp_utc := "T"

/-- A fetcher that raises on the first listing and succeeds on the
second. -/
def failingFirstFetch (u : String) : Except String Etsy.EtsyRow :=
  if u == "u1" then .error "boom" else .ok etsyOkRow

/-- A sample successfully fetched Vinted row. -/
def vintedOkRow : Vinted.VintedRow where
  id := "2"
  title := "ok"
  price := "10"
  currency := "EUR"
  url := "https://www.vinted.es/items/2"
  brand := ""
  size := ""
  status := ""

/-- A Vinted fetcher that raises on the first id and succeeds on the
second. -/
def vintedFailingFirstFetch (u : String) : Except String Vinted.VintedRow :=
  if u == "u1" then .error "boom" else .ok vintedOkRow

/-- The mock paginator of the discovery-termination scenario: 5 pages of
10 new items each (ids 1–50), then the last page's 10 items repeated
forever. -/
def terminationMockPages (i : Nat) : List String :=
  (List.range 10).map (fun k => "/items/" ++ natToStr (10 * (min i 4) + k + 1) ++ "-x")

/-- A paginator whose single page yields ids `9` and `10` in that
insertion order (lexicographically out of order). -/
def unsortedMockPages (_ : Nat) : List String := ["/items/9-a", "/items/10-b"]

/-- A previously synced Wallapop sheet: the header row plus two data
rows from an earlier run. -/
def wallapopPrevSheet : Sheet :=
  [Wallapop.OUTPUT_COLUMNS, ["stale-a"], ["stale-b"]]

/-- A single new Wallapop row for the next run. -/
def wallapopNewItem : Wallapop.WallapopRow where
  id := ""
  title := "new"
  price := "5"
  currency := "€"
  condition := ""
  brand := ""
  category := ""
  location := ""
  url := "u"
  image := ""
  description := ""
  seller_name := "s"
  seller_url := "su"
  timestamp_utc := "t"

/-! ## Helper lemmas -/

theorem firstSome_eq_some {α β : Type} {l : List α} {f : α → Option β} {b : β}
    (h : firstSome l f = some b) : ∃ a ∈ l, f a = some b := by
  induction l with
  | nil => simp [firstSome] at h
  | cons x xs ih =>
    rw [firstSome] at h
    split at h
    next y hfx => exact ⟨x, List.mem_cons_self x xs, by rw [hfx]; exact h⟩
    next hfx =>
      obtain ⟨a, ha, hfa⟩ := ih h
      exact ⟨a, List.mem_cons_of_mem x ha, hfa⟩

theorem searchList_eq_some {m : List Char → Option (List Char × List Char)}
    {cs : List Char} {g : List Char × List Char}
    (h : Vinted.searchList m cs = some g) : ∃ cs', m cs' = some g := by
  induction cs with
  | nil => exact ⟨[], h⟩
  | cons c cs ih =>
    rw [Vinted.searchList] at h
    split at h
    next g' hm => exact ⟨c :: cs, by rw [hm]; exact h⟩
    next hm => exact ih h

theorem takeDigits_head {k : Nat} {cs g r : List Char}
    (h : takeDigits (k + 1) cs = some (g, r)) :
    ∃ c g', g = c :: g' ∧ isDig c = true := by
  cases cs with
  | nil => simp [takeDigits] at h
  | cons c cs' =>
    rw [takeDigits] at h
    split at h
    · cases ht : takeDigits k cs' with
      | none => rw [ht] at h; simp at h
      | some p =>
        rw [ht] at h
        simp only [Option.map_some', Option.some.injEq, Prod.mk.injEq] at h
        next hd => exact ⟨c, p.1, h.1.symm, hd⟩
    · simp at h

theorem digitCands_head {cs g r : List Char} (h : (g, r) ∈ digitCands cs) :
    ∃ c g', g = c :: g' ∧ isDig c = true := by
  unfold digitCands at h
  rw [List.mem_filterMap] at h
  obtain ⟨k, hk, htd⟩ := h
  simp only [List.mem_cons, List.not_mem_nil, or_false] at hk
  rcases hk with rfl | rfl | rfl
  · exact takeDigits_head (k := 2) htd
  · exact takeDigits_head (k := 1) htd
  · exact takeDigits_head (k := 0) htd

theorem numCands_head {cs a r : List Char} (h : (a, r) ∈ Automations.numCands cs) :
    ∃ c a', a = c :: a' ∧ isDig c = true := by
  unfold numCands at h
  rw [List.mem_flatMap] at h
  obtain ⟨d, hd, h⟩ := h
  obtain ⟨dm, dr⟩ := d
  rw [List.mem_flatMap] at h
  obtain ⟨g, hg, h⟩ := h
  rw [List.mem_map] at h
  obtain ⟨o, ho, heq⟩ := h
  obtain ⟨c, g', hdg, hdig⟩ := digitCands_head hd
  refine ⟨c, g' ++ g.1 ++ o.1, ?_, hdig⟩
  have h1 : a = dm ++ g.1 ++ o.1 := by
    have := congrArg Prod.fst heq
    simpa using this.symm
  rw [h1, hdg]
  simp

theorem ciTok_head {t : Char} {ts cs m r : List Char}
    (h : ciTok (t :: ts) cs = some (m, r)) :
    ∃ c m', m = c :: m' ∧ c.toLower = t.toLower := by
  cases cs with
  | nil => simp [ciTok] at h
  | cons c cs' =>
    rw [ciTok] at h
    split at h
    · cases hrec : ciTok ts cs' with
      | none => rw [hrec] at h; simp at h
      | some p =>
        rw [hrec] at h
        simp only [Option.map_some', Option.some.injEq, Prod.mk.injEq] at h
        next hc => exact ⟨c, p.1, h.1.symm, eq_of_beq hc⟩
    · simp at h

theorem keepValChar_of_toLower {c t : Char} (h : c.toLower = t.toLower)
    (h2 : t.toLower ≠ ' ') (h3 : t.toLower ≠ '\u202F') (h4 : t.toLower ≠ '.') :
    keepValChar c = true := by
  have hc2 : c ≠ ' ' := by
    rintro rfl
    exact h2 (h.symm.trans (by decide))
  have hc3 : c ≠ '\u202F' := by
    rintro rfl
    exact h3 (h.symm.trans (by decide))
  have hc4 : c ≠ '.' := by
    rintro rfl
    exact h4 (h.symm.trans (by decide))
  simp [keepValChar, hc2, hc3, hc4]

theorem isDig_keep {c : Char} (h : isDig c = true) : keepValChar c = true := by
  have hc2 : c ≠ ' ' := by rintro rfl; exact absurd h (by decide)
  have hc3 : c ≠ '\u202F' := by rintro rfl; exact absurd h (by decide)
  have hc4 : c ≠ '.' := by rintro rfl; exact absurd h (by decide)
  simp [keepValChar, hc2, hc3, hc4]

theorem curCands_head {cs m r : List Char} (h : (m, r) ∈ Vinted.curCands cs) :
    ∃ c m', m = c :: m' ∧ keepValChar c = true := by
  unfold Vinted.curCands at h
  rw [List.mem_filterMap] at h
  obtain ⟨tok, htok, hci⟩ := h
  rw [Vinted.CUR_TOKENS] at htok
  fin_cases htok <;>
  · obtain ⟨c, m', hm, hlow⟩ := ciTok_head hci
    exact ⟨c, m', hm, keepValChar_of_toLower hlow (by decide) (by decide) (by decide)⟩

theorem normVal_ne_nil {cs : List Char} {c : Char} (hm : c ∈ cs)
    (hk : keepValChar c = true) : Vinted.normVal cs ≠ [] := by
  unfold Vinted.normVal
  intro h
  rw [List.map_eq_nil_iff] at h
  have : c ∈ cs.filter keepValChar := List.mem_filter.mpr ⟨hm, hk⟩
  rw [h] at this
  exact List.not_mem_nil c this

theorem asString_ne_empty {cs : List Char} (h : cs ≠ []) : cs.asString ≠ "" := by
  intro he
  exact h (List.asString_inj.mp (he.trans String.asString_nil.symm))

theorem currencyMapGet_ne {k v : String} (h : Vinted.currencyMapGet k = some v) :
    v ≠ "" := by
  unfold Vinted.currencyMapGet at h
  rw [Option.map_eq_some'] at h
  obtain ⟨p, hfind, hv⟩ := h
  have hmem := List.mem_of_find?_eq_some hfind
  have hall : ∀ q ∈ Vinted.CURRENCY_MAP, q.2 ≠ "" := by decide
  rw [← hv]
  exact hall p hmem

theorem domainCurrencyLookup_ne (d : String) : Vinted.domainCurrencyLookup d ≠ "" := by
  unfold Vinted.domainCurrencyLookup
  cases hfind : Vinted.DOMAIN_CURRENCY.find? (fun p => p.1 == d) with
  | none => simp [hfind]
  | some p =>
    simp only [hfind, Option.map_some', Option.getD_some]
    have hmem := List.mem_of_find?_eq_some hfind
    have hall : ∀ q ∈ Vinted.DOMAIN_CURRENCY, q.2 ≠ "" := by decide
    exact hall p hmem

theorem default_currency_ne (d : String) :
    Vinted.default_currency_for_domain d ≠ "" := by
  unfold Vinted.default_currency_for_domain
  exact domainCurrencyLookup_ne _

theorem priceGroupsToPair_ne {a b : List Char} (hint : String)
    (ha : ∃ c t, a = c :: t ∧ keepValChar c = true)
    (hb : ∃ c t, b = c :: t ∧ keepValChar c = true) :
    (Vinted.priceGroupsToPair a b hint).1 ≠ "" ∧
    (Vinted.priceGroupsToPair a b hint).2 ≠ "" := by
  obtain ⟨ca, ta, rfl, hka⟩ := ha
  obtain ⟨cb, tb, rfl, hkb⟩ := hb
  unfold Vinted.priceGroupsToPair
  constructor
  · by_cases hcond : ((ca :: ta).contains '€' || (ca :: ta).contains '$'
        || (ca :: ta).contains '£'
        || (Vinted.currencyMapGet (strUpperAscii (ca :: ta).asString)).isSome) = true
    · simp only [hcond, if_true]
      exact asString_ne_empty (normVal_ne_nil (List.mem_cons_self cb tb) hkb)
    · simp only [eq_self_iff_true, hcond, if_false]
      exact asString_ne_empty (normVal_ne_nil (List.mem_cons_self ca ta) hka)
  · simp only []
    cases h1 : Vinted.currencyMapGet
        ((if ((ca :: ta).contains '€' || (ca :: ta).contains '$'
          || (ca :: ta).contains '£'
          || (Vinted.currencyMapGet (strUpperAscii (ca :: ta).asString)).isSome) = true
          then (ca :: ta) else (cb :: tb)).asString) with
    | some v =>
      have hv := currencyMapGet_ne h1
      simp only [h1]
      rw [if_neg (by simpa using hv)]
      exact hv
    | none =>
      simp only [h1]
      cases h2 : Vinted.currencyMapGet
          (strUpperAscii (if ((ca :: ta).contains '€' || (ca :: ta).contains '$'
            || (ca :: ta).contains '£'
            || (Vinted.currencyMapGet (strUpperAscii (ca :: ta).asString)).isSome) = true
            then (ca :: ta) else (cb :: tb)).asString) with
      | some v =>
        have hv := currencyMapGet_ne h2
        simp only [h2]
        rw [if_neg (by simpa using hv)]
        exact hv
      | none =>
        simp only [h2]
        rw [if_pos (by rfl)]
        exact default_currency_ne hint

theorem matchP1_heads {cs : List Char} {a b : List Char}
    (h : Vinted.matchP1 cs = some (a, b)) :
    (∃ c t, a = c :: t ∧ keepValChar c = true) ∧
    (∃ c t, b = c :: t ∧ keepValChar c = true) := by
  unfold Vinted.matchP1 at h
  obtain ⟨n, hn, h1⟩ := firstSome_eq_some h
  obtain ⟨s, hs, h2⟩ := firstSome_eq_some h1
  obtain ⟨cc, hc, h3⟩ := firstSome_eq_some h2
  simp only [Option.some.injEq, Prod.mk.injEq] at h3
  obtain ⟨rfl, rfl⟩ := h3
  constructor
  · obtain ⟨c, a', heq, hdig⟩ := numCands_head (show (n.1, n.2) ∈ _ from by simpa using hn)
    exact ⟨c, a', heq, isDig_keep hdig⟩
  · exact curCands_head (show (cc.1, cc.2) ∈ _ from by simpa using hc)

theorem matchP2_heads {cs : List Char} {a b : List Char}
    (h : Vinted.matchP2 cs = some (a, b)) :
    (∃ c t, a = c :: t ∧ keepValChar c = true) ∧
    (∃ c t, b = c :: t ∧ keepValChar c = true) := by
  unfold Vinted.matchP2 at h
  obtain ⟨cc, hc, h1⟩ := firstSome_eq_some h
  obtain ⟨s, hs, h2⟩ := firstSome_eq_some h1
  obtain ⟨n, hn, h3⟩ := firstSome_eq_some h2
  simp only [Option.some.injEq, Prod.mk.injEq] at h3
  obtain ⟨rfl, rfl⟩ := h3
  constructor
  · exact curCands_head (show (cc.1, cc.2) ∈ _ from by simpa using hc)
  · obtain ⟨c, a', heq, hdig⟩ := numCands_head (show (n.1, n.2) ∈ _ from by simpa using hn)
    exact ⟨c, a', heq, isDig_keep hdig⟩

theorem parseStripped_cases (t : List Char) (hint : String) :
    Vinted.parseStripped t hint = ("", "") ∨
    ((Vinted.parseStripped t hint).1 ≠ "" ∧ (Vinted.parseStripped t hint).2 ≠ "") := by
  by_cases he : t.isEmpty = true
  · left; simp [Vinted.parseStripped, he]
  · cases h1 : Vinted.searchList Vinted.matchP1 t with
    | some g =>
      obtain ⟨a, b⟩ := g
      have hps : Vinted.parseStripped t hint = Vinted.priceGroupsToPair a b hint := by
        unfold Vinted.parseStripped
        rw [if_neg he]
        have horel : (Vinted.searchList Vinted.matchP1 t).orElse
            (fun _ => Vinted.searchList Vinted.matchP2 t) = some (a, b) := by
          rw [h1]; rfl
        rw [horel]
      right
      rw [hps]
      obtain ⟨cs', hm⟩ := searchList_eq_some h1
      exact priceGroupsToPair_ne hint (matchP1_heads hm).1 (matchP1_heads hm).2
    | none =>
      cases h2 : Vinted.searchList Vinted.matchP2 t with
      | some g =>
        obtain ⟨a, b⟩ := g
        have hps : Vinted.parseStripped t hint = Vinted.priceGroupsToPair a b hint := by
          unfold Vinted.parseStripped
          rw [if_neg he]
          have horel : (Vinted.searchList Vinted.matchP1 t).orElse
              (fun _ => Vinted.searchList Vinted.matchP2 t) = some (a, b) := by
            rw [h1, h2]; rfl
          rw [horel]
        right
        rw [hps]
        obtain ⟨cs', hm⟩ := searchList_eq_some h2
        exact priceGroupsToPair_ne hint (matchP2_heads hm).1 (matchP2_heads hm).2
      | none =>
        left
        unfold Vinted.parseStripped
        rw [if_neg he]
        have horel : (Vinted.searchList Vinted.matchP1 t).orElse
            (fun _ => Vinted.searchList Vinted.matchP2 t) = none := by
          rw [h1, h2]; rfl
        rw [horel]

theorem dig_ne {c x : Char} (h : isDig c = true) (hx : isDig x = false) :
    (c == x) = false := by
  rw [beq_eq_false_iff_ne]
  rintro rfl
  rw [h] at hx
  exact absurd hx (by decide)

theorem toUpper_digit {c : Char} (h : isDig c = true) : c.toUpper = c := by
  have h9 : c.toNat ≤ 57 := by
    rw [isDig, Char.isDigit, Bool.and_eq_true] at h
    have h2 := h.2
    rw [decide_eq_true_iff] at h2
    exact h2
  rw [Char.toUpper, if_neg]
  intro hcon
  omega

theorem firstSome_cons_some {α β : Type} {f : α → Option β} {a : α} {as : List α}
    {b : β} (h : f a = some b) : firstSome (a :: as) f = some b := by
  rw [firstSome, h]

theorem searchList_of_match {m : List Char → Option (List Char × List Char)}
    {cs : List Char} {g : List Char × List Char} (h : m cs = some g) :
    Vinted.searchList m cs = some g := by
  cases cs with
  | nil => exact h
  | cons c cs' => rw [Vinted.searchList, h]

theorem takeDigits_all (ds : List Char) (sfx : List Char)
    (h : ∀ c ∈ ds, isDig c = true) :
    takeDigits ds.length (ds ++ sfx) = some (ds, sfx) := by
  induction ds with
  | nil => rfl
  | cons a rest ih =>
    rw [List.length_cons, List.cons_append, takeDigits,
      if_pos (h a (List.mem_cons_self a rest)),
      ih (fun c hc => h c (List.mem_cons_of_mem a hc))]
    rfl

theorem takeDigits_over (ds : List Char) (r : List Char) (j : Nat)
    (h : ∀ c ∈ ds, isDig c = true) :
    takeDigits (ds.length + (j + 1)) (ds ++ ' ' :: r) = none := by
  induction ds with
  | nil =>
    rw [List.length_nil, Nat.zero_add, List.nil_append, takeDigits,
      if_neg (by decide)]
  | cons a rest ih =>
    have hl : (a :: rest).length + (j + 1) = (rest.length + (j + 1)) + 1 := by
      rw [List.length_cons]; omega
    rw [hl, List.cons_append, takeDigits,
      if_pos (h a (List.mem_cons_self a rest)),
      ih (fun c hc => h c (List.mem_cons_of_mem a hc))]
    rfl

theorem digitCands_digits (ds : List Char) (h : ∀ c ∈ ds, isDig c = true)
    (hne : ds ≠ []) (hlen : ds.length ≤ 3) :
    ∃ rest, digitCands (ds ++ [' ', 'E', 'U', 'R']) =
      (ds, [' ', 'E', 'U', 'R']) :: rest := by
  have h1 : ds.length = 1 ∨ ds.length = 2 ∨ ds.length = 3 := by
    have : ds.length ≠ 0 := fun h0 => hne (List.eq_nil_of_length_eq_zero h0)
    omega
  unfold digitCands
  rcases h1 with hl | hl | hl
  · have t3 : takeDigits 3 (ds ++ [' ', 'E', 'U', 'R']) = none := by
      have := takeDigits_over ds ['E', 'U', 'R'] 1 h
      rw [hl] at this; exact this
    have t2 : takeDigits 2 (ds ++ [' ', 'E', 'U', 'R']) = none := by
      have := takeDigits_over ds ['E', 'U', 'R'] 0 h
      rw [hl] at this; exact this
    have t1 : takeDigits 1 (ds ++ [' ', 'E', 'U', 'R']) = some (ds, [' ', 'E', 'U', 'R']) := by
      have := takeDigits_all ds [' ', 'E', 'U', 'R'] h
      rw [hl] at this; exact this
    exact ⟨[], by simp [List.filterMap_cons, t3, t2, t1]⟩
  · have t3 : takeDigits 3 (ds ++ [' ', 'E', 'U', 'R']) = none := by
      have := takeDigits_over ds ['E', 'U', 'R'] 0 h
      rw [hl] at this; exact this
    have t2 : takeDigits 2 (ds ++ [' ', 'E', 'U', 'R']) = some (ds, [' ', 'E', 'U', 'R']) := by
      have := takeDigits_all ds [' ', 'E', 'U', 'R'] h
      rw [hl] at this; exact this
    exact ⟨List.filterMap (fun k => takeDigits k (ds ++ [' ', 'E', 'U', 'R'])) [1],
      by simp [List.filterMap_cons, t3, t2]⟩
  · have t3 : takeDigits 3 (ds ++ [' ', 'E', 'U', 'R']) = some (ds, [' ', 'E', 'U', 'R']) := by
      have := takeDigits_all ds [' ', 'E', 'U', 'R'] h
      rw [hl] at this; exact this
    exact ⟨List.filterMap (fun k => takeDigits k (ds ++ [' ', 'E', 'U', 'R'])) [2, 1],
      by simp [List.filterMap_cons, t3]⟩

theorem numCands_digits (ds : List Char) (h : ∀ c ∈ ds, isDig c = true)
    (hne : ds ≠ []) (hlen : ds.length ≤ 3) :
    ∃ rest, numCands (ds ++ [' ', 'E', 'U', 'R']) =
      (ds, [' ', 'E', 'U', 'R']) :: rest := by
  obtain ⟨drest, hdc⟩ := digitCands_digits ds h hne hlen
  refine ⟨drest.flatMap (fun d =>
    (repsCands d.2.length d.2).flatMap (fun g =>
      (decCands g.2).map (fun o => (d.1 ++ g.1 ++ o.1, o.2)))), ?_⟩
  rw [numCands, hdc, List.flatMap_cons]
  simp only [show repsCands ((ds, ([' ', 'E', 'U', 'R'] : List Char))).2.length
        ((ds, ([' ', 'E', 'U', 'R'] : List Char))).2 = [([], [' ', 'E', 'U', 'R'])] from rfl,
    show decCands ([' ', 'E', 'U', 'R'] : List Char) = [([], [' ', 'E', 'U', 'R'])] from rfl,
    List.flatMap_cons, List.flatMap_nil, List.map_cons, List.map_nil,
    List.append_nil, List.nil_append, List.cons_append]

theorem matchP1_digits (ds : List Char) (h : ∀ c ∈ ds, isDig c = true)
    (hne : ds ≠ []) (hlen : ds.length ≤ 3) :
    Vinted.matchP1 (ds ++ [' ', 'E', 'U', 'R']) = some (ds, ['E', 'U', 'R']) := by
  obtain ⟨rest, hnum⟩ := numCands_digits ds h hne hlen
  rw [Vinted.matchP1, hnum]
  apply firstSome_cons_some
  show firstSome (spaceCands ([' ', 'E', 'U', 'R'] : List Char))
      (fun s => firstSome (Vinted.curCands s.2) (fun c => some (ds, c.1)))
    = some (ds, ['E', 'U', 'R'])
  rw [show spaceCands ([' ', 'E', 'U', 'R'] : List Char)
      = [([' '], ['E', 'U', 'R']), ([], [' ', 'E', 'U', 'R'])] from rfl]
  apply firstSome_cons_some
  show firstSome (Vinted.curCands (['E', 'U', 'R'] : List Char))
      (fun c => some (ds, c.1)) = some (ds, ['E', 'U', 'R'])
  rw [show Vinted.curCands (['E', 'U', 'R'] : List Char)
      = [(['E', 'U', 'R'], [])] from rfl]
  exact firstSome_cons_some rfl

theorem digits_contains_false (ds : List Char) (h : ∀ c ∈ ds, isDig c = true)
    (x : Char) (hx : isDig x = false) : ds.contains x = false := by
  induction ds with
  | nil => rfl
  | cons a rest ih =>
    rw [List.contains_cons]
    have ha : (x == a) = false := by
      rw [beq_eq_false_iff_ne]
      rintro rfl
      rw [h x (List.mem_cons_self x rest)] at hx
      exact absurd hx (by decide)
    rw [ha, ih (fun c hc => h c (List.mem_cons_of_mem a hc)), Bool.or_self]

theorem strUpperAscii_digits (ds : List Char) (h : ∀ c ∈ ds, isDig c = true) :
    strUpperAscii ds.asString = ds.asString := by
  rw [strUpperAscii, List.toList_asString]
  congr 1
  rw [List.map_congr_left (fun c hc => toUpper_digit (h c hc))]
  exact List.map_id ds

theorem currencyMapGet_digits (ds : List Char) (h : ∀ c ∈ ds, isDig c = true) :
    Vinted.currencyMapGet ds.asString = none := by
  rw [Vinted.currencyMapGet]
  rw [List.find?_eq_none.mpr]
  · rfl
  · intro p hp hbeq
    have hkey : ∀ q ∈ Vinted.CURRENCY_MAP, q.1.toList.all isDig = false := by decide
    have heq : p.1 = ds.asString := eq_of_beq hbeq
    have htl : p.1.toList = ds := by rw [heq, List.toList_asString]
    have hall : p.1.toList.all isDig = true := by
      rw [htl, List.all_eq_true]
      exact h
    rw [hkey p hp] at hall
    exact absurd hall (by decide)

theorem normVal_digits (ds : List Char) (h : ∀ c ∈ ds, isDig c = true) :
    Vinted.normVal ds = ds := by
  rw [Vinted.normVal, List.filter_eq_self.mpr (fun c hc => isDig_keep (h c hc))]
  rw [List.map_congr_left (fun c hc => ?_)]
  · exact List.map_id ds
  · rw [dig_ne (h c hc) (by decide)]
    rfl

theorem priceGroupsToPair_digits (ds : List Char) (h : ∀ c ∈ ds, isDig c = true) :
    Vinted.priceGroupsToPair ds ['E', 'U', 'R'] "es" = (ds.asString, "EUR") := by
  have hc1 := digits_contains_false ds h '€' (by decide)
  have hc2 := digits_contains_false ds h '$' (by decide)
  have hc3 := digits_contains_false ds h '£' (by decide)
  have hmapUp : Vinted.currencyMapGet (strUpperAscii ds.asString) = none := by
    rw [strUpperAscii_digits ds h]
    exact currencyMapGet_digits ds h
  rw [Vinted.priceGroupsToPair]
  simp only [hc1, hc2, hc3, hmapUp, Option.isSome_none, Bool.or_false, Bool.or_self,
    Bool.false_eq_true, if_false, normVal_digits ds h,
    show ((['E', 'U', 'R'] : List Char)).asString = "EUR" from by decide,
    show Vinted.currencyMapGet "EUR" = some "EUR" from by decide,
    show (("EUR" : String) == "") = false from by decide]

theorem dig_not_spc {c : Char} (h : isDig c = true) : isSpc c = false := by
  rw [isSpc, dig_ne h (show isDig ' ' = false from by decide),
    dig_ne h (show isDig '\t' = false from by decide),
    dig_ne h (show isDig '\n' = false from by decide),
    dig_ne h (show isDig '\r' = false from by decide),
    dig_ne h (show isDig '\x0b' = false from by decide),
    dig_ne h (show isDig '\x0c' = false from by decide)]
  rfl

theorem pyStrip_digits_eur (ds : List Char) (h : ∀ c ∈ ds, isDig c = true)
    (hne : ds ≠ []) :
    pyStrip (ds ++ [' ', 'E', 'U', 'R']) = ds ++ [' ', 'E', 'U', 'R'] := by
  obtain ⟨d, ds', rfl⟩ := List.exists_cons_of_ne_nil hne
  have hspc : isSpc d = false := dig_not_spc (h d (List.mem_cons_self d ds'))
  rw [pyStrip]
  have h1 : List.dropWhile isSpc ((d :: ds') ++ [' ', 'E', 'U', 'R'])
      = (d :: ds') ++ [' ', 'E', 'U', 'R'] := by
    rw [List.cons_append, List.dropWhile_cons, hspc]
    rfl
  have h2 : ((d :: ds') ++ [' ', 'E', 'U', 'R']).reverse
      = 'R' :: ('U' :: ('E' :: (' ' :: (d :: ds').reverse))) := by
    simp [List.reverse_append]
  rw [h1, h2, List.dropWhile_cons, show isSpc 'R' = false from by decide]
  rw [show (if false = true then List.dropWhile isSpc ('U' :: ('E' :: (' ' :: (d :: ds').reverse)))
      else 'R' :: ('U' :: ('E' :: (' ' :: (d :: ds').reverse))))
    = 'R' :: ('U' :: ('E' :: (' ' :: (d :: ds').reverse))) from rfl]
  rw [← h2, List.reverse_reverse]

theorem parse_digits_eur (ds : List Char) (h : ∀ c ∈ ds, isDig c = true)
    (hne : ds ≠ []) (hlen : ds.length ≤ 3) :
    Vinted.parse_price_currency_from_text (ds.asString ++ " EUR") "es"
      = (ds.asString, "EUR") := by
  have htl : (ds.asString ++ " EUR").toList = ds ++ [' ', 'E', 'U', 'R'] := by
    show (ds.asString ++ " EUR").data = ds ++ [' ', 'E', 'U', 'R']
    rw [String.data_append]
    congr 1
  have hmap : (ds ++ [' ', 'E', 'U', 'R']).map (fun c => if c == '\xa0' then ' ' else c)
      = ds ++ [' ', 'E', 'U', 'R'] := by
    rw [List.map_append]
    congr 1
    · rw [List.map_congr_left (fun c hc => ?_)]
      · exact List.map_id ds
      · rw [dig_ne (h c hc) (show isDig '\xa0' = false from by decide)]
        rfl
  rw [Vinted.parse_price_currency_from_text, htl, hmap,
    pyStrip_digits_eur ds h hne, Vinted.parseStripped]
  obtain ⟨d, ds', rfl⟩ := List.exists_cons_of_ne_nil hne
  rw [if_neg (by rw [List.cons_append]; exact fun hh => absurd hh (by rw [List.isEmpty_cons]; decide))]
  rw [searchList_of_match (matchP1_digits (d :: ds') h hne hlen)]
  rw [show ((some ((d :: ds'), ['E', 'U', 'R']) : Option (List Char × List Char)).orElse
      (fun _ => Vinted.searchList Vinted.matchP2 ((d :: ds') ++ [' ', 'E', 'U', 'R'])))
    = some ((d :: ds'), ['E', 'U', 'R']) from rfl]
  exact priceGroupsToPair_digits (d :: ds') h

/-! ## Claim theorems -/

/-- C1 (counterexample): a Wallapop detail record can carry a numeric
price with an empty currency.  `normalize_price` maps the bare price
text `"25"` to `("25", "")` — it has no domain-default fallback — and
`fetch_item_detail` stores that pair unchanged, so price and currency
are NOT always both empty or both populated. -/
theorem c1_wallapop_price_without_currency :
    (Wallapop.fetch_item_detail wallapopBarePricePage
        "https://es.wallapop.com/item/camiseta-123" "S" "SU" "T").map
      (fun r => (r.price, r.currency)) = some ("25", "") := by decide

/-- C1 (amended claim): for the Vinted price/currency normaliser
`parse_price_currency_from_text` the claimed invariant does hold: the
result is either completely empty or has both a non-empty value and a
non-empty currency, the currency falling back to the domain-default
table when no token resolves.  (The Wallapop and Etsy extractors can
emit a price without a currency, and the Vinted detail record also
populates the default currency when no price was found.) -/
theorem c1_vinted_price_pair_both_or_none (text domain_hint : String) :
    Vinted.parse_price_currency_from_text text domain_hint = ("", "") ∨
    ((Vinted.parse_price_currency_from_text text domain_hint).1 ≠ "" ∧
     (Vinted.parse_price_currency_from_text text domain_hint).2 ≠ "") := by
  unfold Vinted.parse_price_currency_from_text
  exact parseStripped_cases _ _

/-- C3 (counterexample): in the Etsy per-listing loop an exception is
logged and the listing is skipped — NO stub record is emitted for it
(the result contains only the second listing's row) — and in the Vinted
main loop the same exception aborts the whole run, so the remaining
listings are not processed either. -/
theorem c3_no_stub_and_vinted_aborts :
    Etsy.etsyRunLoop ["u1", "u2"] failingFirstFetch = [etsyOkRow] ∧
    Vinted.vintedMainLoop ["u1", "u2"] vintedFailingFirstFetch = .error "boom" :=
  ⟨rfl, rfl⟩

/-- C3 (amended claim): an exception while processing one listing is
logged and the listing is skipped without emitting any record, and
processing continues with the remaining listings (Etsy and Wallapop
loops); the Vinted detail loop has no per-listing handler, so there an
exception aborts the processing of all remaining listings. -/
theorem c3_failure_isolation (fetch : String → Except String Etsy.EtsyRow)
    (vfetch : String → Except String Vinted.VintedRow) (u : String)
    (rest : List String) (e e2 : String)
    (he : fetch u = .error e) (hv : vfetch u = .error e2) :
    Etsy.etsyRunLoop (u :: rest) fetch = Etsy.etsyRunLoop rest fetch ∧
    Vinted.vintedMainLoop (u :: rest) vfetch = .error e2 := by
  constructor
  · unfold Etsy.etsyRunLoop
    simp [he]
  · unfold Vinted.vintedMainLoop
    rw [hv]

/-- Witness for `c3_failure_isolation` at a concrete failing fetch. -/
theorem c3_failure_isolation_witness :
    Etsy.etsyRunLoop ["u1", "u2"] failingFirstFetch
      = Etsy.etsyRunLoop ["u2"] failingFirstFetch ∧
    Vinted.vintedMainLoop ["u1", "u2"] vintedFailingFirstFetch = .error "boom" :=
  c3_failure_isolation failingFirstFetch vintedFailingFirstFetch "u1" ["u2"]
    "boom" "boom" rfl rfl

/-- C4 (counterexample): the stub record produced by the Vinted detail
extractor for a listing with zero extractable fields does NOT have all
non-id/url fields empty: its currency is populated with the domain
default ("EUR"), even though the price is empty. -/
theorem c4_vinted_stub_currency_not_empty :
    (Vinted.fetch_item_detail_with_browser Vinted.emptyVintedPage "123" "es").currency
      = "EUR" ∧
    (Vinted.fetch_item_detail_with_browser Vinted.emptyVintedPage "123" "es").price
      = "" := by decide

/-- C5 (counterexample): the price normaliser is not idempotent.  For
the already-normalised input `"1234.56 EUR"`, one application yields
`("23456", "EUR")` (the decimal dot is stripped as if it were a
thousands separator, after the leftmost match `234.56`); re-normalising
the rendering of that output yields `("456", "EUR")` — a different
pair. -/
theorem c5_not_idempotent :
    Vinted.parse_price_currency_from_text "1234.56 EUR" "es" = ("23456", "EUR") ∧
    Vinted.parse_price_currency_from_text
        (renderPrice (Vinted.parse_price_currency_from_text "1234.56 EUR" "es")) "es"
      ≠ Vinted.parse_price_currency_from_text "1234.56 EUR" "es" := by decide

/-- C5 (amended): the normaliser is idempotent on every already-normalised
integer price value of at most three digits — a non-empty all-digit value
followed by `" EUR"`, one full leftmost `\d{1,3}` match of the price
pattern: it maps the text to `(value, "EUR")`, and re-normalising the
rendering of that output reproduces the same pair.  The counterexample's
failure is not characterised by a decimal point or by more than three
integer digits alone: `"1234 EUR"` (four integer digits) and `"5.99 EUR"`
(decimal point) both re-normalise stably to `("234", "EUR")` and
`("599", "EUR")`. -/
theorem c5_idempotent_on_small_integer_values (ds : List Char)
    (hds : ∀ c ∈ ds, isDig c = true) (hne : ds ≠ []) (hlen : ds.length ≤ 3) :
    (Vinted.parse_price_currency_from_text (ds.asString ++ " EUR") "es"
      = (ds.asString, "EUR") ∧
     Vinted.parse_price_currency_from_text
        (renderPrice (Vinted.parse_price_currency_from_text (ds.asString ++ " EUR") "es")) "es"
      = Vinted.parse_price_currency_from_text (ds.asString ++ " EUR") "es") ∧
    (Vinted.parse_price_currency_from_text "1234 EUR" "es" = ("234", "EUR") ∧
     Vinted.parse_price_currency_from_text
        (renderPrice (Vinted.parse_price_currency_from_text "1234 EUR" "es")) "es"
      = Vinted.parse_price_currency_from_text "1234 EUR" "es") ∧
    (Vinted.parse_price_currency_from_text "5.99 EUR" "es" = ("599", "EUR") ∧
     Vinted.parse_price_currency_from_text
        (renderPrice (Vinted.parse_price_currency_from_text "5.99 EUR" "es")) "es"
      = Vinted.parse_price_currency_from_text "5.99 EUR" "es") := by
  refine ⟨?_, by decide, by decide⟩
  have h1 := parse_digits_eur ds hds hne hlen
  refine ⟨h1, ?_⟩
  rw [h1]
  have hr : renderPrice (ds.asString, "EUR") = ds.asString ++ " EUR" := by
    rw [renderPrice]
    apply String.ext
    rw [String.data_append, String.data_append, String.data_append, List.append_assoc]
    rfl
  rw [hr, h1]

/-- Witness for the amended C5 theorem at the concrete value `"999"`. -/
theorem c5_idempotent_witness :
    (∀ c ∈ (['9', '9', '9'] : List Char), isDig c = true) ∧
    (['9', '9', '9'] : List Char) ≠ [] ∧
    (['9', '9', '9'] : List Char).length ≤ 3 ∧
    (Vinted.parse_price_currency_from_text "999 EUR" "es" = ("999", "EUR") ∧
     Vinted.parse_price_currency_from_text
        (renderPrice (Vinted.parse_price_currency_from_text "999 EUR" "es")) "es"
      = Vinted.parse_price_currency_from_text "999 EUR" "es") := by
  refine ⟨by decide, by decide, by decide, ?_⟩
  have h := (c5_idempotent_on_small_integer_values ['9', '9', '9']
    (by decide) (by decide) (by decide)).1
  rw [show (['9', '9', '9'] : List Char).asString = "999" from by decide] at h
  exact h

/-- C6: the scenario input `"1.234,56 €"` with domain hint `"es"`
normalises to `("1234.56", "EUR")` — thousands dot removed, decimal
comma converted to a dot, euro symbol mapped to its ISO code. -/
theorem c6_scenario_price_normalisation :
    Vinted.parse_price_currency_from_text "1.234,56 €" "es" = ("1234.56", "EUR") := by
  decide

/-- C7: the Vinted discovery loop tracks the stable-rounds counter
(increment on an iteration that adds nothing, reset otherwise, stop at
threshold 4).  Fed the mock paginator with 5 pages of 10 new items and
then the same items forever, it terminates after 9 = 5 + 4 iterations —
well below the hard cap of 100 — having collected all 50 ids. -/
theorem c7_discovery_termination :
    (Vinted.collect_item_ids_with_browser terminationMockPages).2 = 9 ∧
    (Vinted.collect_item_ids_with_browser terminationMockPages).2 ≤ 5 + 4 ∧
    (Vinted.collect_item_ids_with_browser terminationMockPages).2 < 100 ∧
    (Vinted.collect_item_ids_with_browser terminationMockPages).1.length = 50 := by
  decide

/-- C9: within the retry budget of `fetch_item` (3 attempts, so backoff
runs with attempt numbers 1 and 2), the computed wait time is strictly
increasing in the attempt number for every admissible jitter pair, and
the number of attempts per listing never exceeds 3. -/
theorem c9_backoff_monotone_and_capped (j1 j2 : ℚ)
    (h1a : 0 ≤ j1) (h1b : j1 ≤ 2) (h2a : 0 ≤ j2) (h2b : j2 ≤ 2)
    (titles : Nat → String) :
    Etsy.backoffWait 1 j1 < Etsy.backoffWait 2 j2 ∧
    Etsy.fetchItemAttempts titles ≤ 3 := by
  constructor
  · unfold Etsy.backoffWait Etsy.backoffBase
    have e1 : min (20 : ℚ) (3 * 2 ^ (1 - 1)) = 3 := by norm_num
    have e2 : min (20 : ℚ) (3 * 2 ^ (2 - 1)) = 6 := by norm_num
    rw [e1, e2]
    linarith
  · unfold Etsy.fetchItemAttempts
    split
    · norm_num
    · split <;> norm_num

/-- Witness for `c9_backoff_monotone_and_capped` at extreme jitters and
a always-blocked page. -/
theorem c9_backoff_witness :
    Etsy.backoffWait 1 2 < Etsy.backoffWait 2 0 ∧
    Etsy.fetchItemAttempts (fun _ => "robot check") ≤ 3 :=
  c9_backoff_monotone_and_capped 2 0 (by norm_num) (by norm_num) (by norm_num)
    (by norm_num) (fun _ => "robot check")

/-- C10 (counterexample): the Wallapop sync appends below the existing
data region and never clears anything: after a run that writes a single
row over a sheet holding two rows from a previous run, both stale rows
are still in the sheet (and the new row sits below them). -/
theorem c10_wallapop_stale_rows_remain :
    Wallapop.run_writes wallapopPrevSheet [wallapopNewItem] =
      [Wallapop.OUTPUT_COLUMNS, ["stale-a"], ["stale-b"],
        Wallapop.rowValues wallapopNewItem] ∧
    (["stale-a"] : List String) ≠ [] := by decide

theorem find?_filter_none {l : List (String × String)}
    {pr : String × String → Bool} {k : String}
    (h : ∀ x ∈ l, (x.1 == k) = true → pr x = false) :
    List.find? (fun p => p.1 == k) (l.filter pr) = none := by
  rw [List.find?_eq_none]
  intro x hx hq
  rw [List.mem_filter] at hx
  have := h x hx.1 hq
  rw [this] at hx
  exact Bool.false_ne_true hx.2

theorem find?_filter_keyed {l : List (String × String)}
    {pr : String × String → Bool} {k : String}
    (h : ∀ x ∈ l, (x.1 == k) = true → pr x = true) :
    List.find? (fun p => p.1 == k) (l.filter pr) =
    List.find? (fun p => p.1 == k) l := by
  induction l with
  | nil => simp
  | cons x xs ih =>
    have hrest : ∀ y ∈ xs, (y.1 == k) = true → pr y = true :=
      fun y hy => h y (List.mem_cons_of_mem x hy)
    by_cases hq : (x.1 == k) = true
    · have hpr := h x (List.mem_cons_self x xs) hq
      simp [List.filter_cons_of_pos hpr, List.find?_cons, hq]
    · have hq' : (x.1 == k) = false := by simpa using hq
      by_cases hpr : pr x = true
      · rw [List.filter_cons_of_pos hpr]
        simp only [List.find?_cons, hq']
        exact ih hrest
      · rw [List.filter_cons_of_neg (by simpa using hpr)]
        simp only [List.find?_cons, hq']
        exact ih hrest

/-- C2 (amended claim): the merge `{**fallback, **parsed}` of
`fetch_item` (likewise `{**sel_parsed, **parsed}` in Wallapop's
`fetch_item_detail`) is decided by KEY PRESENCE, not by non-emptiness:
any key present in the more-trusted dict `parsed` keeps its value — even
when that value is the empty string — and only keys absent from
`parsed` are filled from the later strategy's dict. -/
theorem c2_merge_presence_semantics (a b : Dict) (k : String) :
    Dict.get (Dict.merge b a) k = (Dict.get a k).or (Dict.get b k) := by
  unfold Dict.merge
  show (List.find? (fun p => p.1 == k)
      ((b.filter (fun p => (Dict.get a p.1).isNone)) ++ a)).map (fun x => x.2)
    = (Dict.get a k).or (Dict.get b k)
  have hgb : Dict.get b k
      = (List.find? (fun p => p.1 == k) b).map (fun x => x.2) := rfl
  cases ha : List.find? (fun p => p.1 == k) a with
  | some pa =>
    have hga : Dict.get a k = some pa.2 := by
      unfold Dict.get
      rw [ha]
      rfl
    have hfil : List.find? (fun p => p.1 == k)
        (b.filter (fun p => (Dict.get a p.1).isNone)) = none := by
      apply find?_filter_none
      intro x hx hq
      have hxk : x.1 = k := eq_of_beq hq
      rw [hxk, hga]
      rfl
    rw [List.find?_append, hfil, ha, hga]
    rfl
  | none =>
    have hga : Dict.get a k = none := by
      unfold Dict.get
      rw [ha]
      rfl
    have hfil : List.find? (fun p => p.1 == k)
        (b.filter (fun p => (Dict.get a p.1).isNone)) =
        List.find? (fun p => p.1 == k) b := by
      apply find?_filter_keyed
      intro x hx hq
      have hxk : x.1 = k := eq_of_beq hq
      rw [hxk, hga]
      rfl
    rw [List.find?_append, hfil, ha, hga, hgb]
    cases List.find? (fun p => p.1 == k) b <;> rfl

/-- Witness for `c2_merge_presence_semantics` at the claim's own
example dicts. -/
theorem c2_merge_presence_witness :
    Dict.get (Dict.merge [("title", "B"), ("price", "10")] [("title", "A")]) "title"
        = (Dict.get [("title", "A")] "title").or
            (Dict.get [("title", "B"), ("price", "10")] "title") ∧
    Dict.get (Dict.merge [("title", "B"), ("price", "10")] [("title", "A")]) "price"
        = (Dict.get [("title", "A")] "price").or
            (Dict.get [("title", "B"), ("price", "10")] "price") :=
  ⟨c2_merge_presence_semantics [("title", "A")] [("title", "B"), ("price", "10")] "title",
   c2_merge_presence_semantics [("title", "A")] [("title", "B"), ("price", "10")] "price"⟩

/-- C2 (counterexample): fields the earlier (JSON-LD) strategy "left
empty" are NOT filled by the later (DOM) strategy.  A minimal
`{"@type": "Product"}` JSON-LD block yields a dict whose `title` and
`price` keys are present with empty-string values; merging keeps those
empty strings, so the record ends with empty title and price although
the DOM fallback saw title `"B"` and price `"10"`. -/
theorem c2_empty_fields_not_filled :
    (Etsy.fetch_item etsyEmptyProductPage "https://www.etsy.com/listing/77-x"
        "shop" "surl" "now").title = "" ∧
    (Etsy.fetch_item etsyEmptyProductPage "https://www.etsy.com/listing/77-x"
        "shop" "surl" "now").price = "" ∧
    Dict.get (Etsy.fallback_from_dom etsyEmptyProductPage) "title" = some "B" ∧
    Dict.get (Etsy.fallback_from_dom etsyEmptyProductPage) "price" = some "10" ∧
    Dict.get (Etsy.etsyJsonLdScan etsyEmptyProductPage.jsonldBlocks []) "price"
      = some "" := by decide

theorem listingIdAt_ne {cs : List Char} {s : String}
    (h : Etsy.listingIdAt cs = some s) : s ≠ "" := by
  unfold Etsy.listingIdAt at h
  split at h
  · split at h
    · simp at h
    · next hne =>
      simp only [Option.some.injEq] at h
      rw [← h]
      apply asString_ne_empty
      intro hnil
      rw [hnil] at hne
      exact hne rfl
  · simp at h

theorem listingIdSearch_ne {cs : List Char} {s : String}
    (h : Etsy.listingIdSearch cs = some s) : s ≠ "" := by
  induction cs with
  | nil => simp [Etsy.listingIdSearch] at h
  | cons c cs ih =>
    rw [Etsy.listingIdSearch] at h
    split at h
    · next s' hat =>
      have hs := Option.some.inj h
      rw [← hs]
      exact listingIdAt_ne hat
    · exact ih h

/-- C4 (amended claim): for a listing whose extraction strategies all
yield zero fields, the Etsy record still carries the URL-derived
numeric id (non-empty) and the listing URL, with the extraction fields
empty — but the shop identity and capture timestamp are populated, not
empty; and the Wallapop script computes the URL-derived id and then
drops it (dead store), leaving the stub record's id EMPTY.  (The Vinted
stub additionally carries the domain-default currency, see the
counterexample.) -/
theorem c4_stub_record_fields (url sn su now lid : String)
    (h : Etsy.listingIdSearch url.toList = some lid) :
    Etsy.fetch_item Etsy.emptyEtsyPage url sn su now =
      { id := lid, title := "", price := "", currency := "", availability := "",
        category := "", tags := "", url := url, image := "", description := "",
        shop_name := sn, shop_url := su, timestamp_utc := now } ∧
    lid ≠ "" ∧
    (Wallapop.fetch_item_detail Wallapop.emptyWallapopPage url sn su now).map
      Wallapop.WallapopRow.id = some "" := by
  refine ⟨?_, listingIdSearch_ne h, rfl⟩
  have hfe : Etsy.fetch_item Etsy.emptyEtsyPage url sn su now =
      { id := (Etsy.listingIdSearch url.toList).getD "", title := "", price := "",
        currency := "", availability := "", category := "", tags := "",
        url := url, image := "", description := "",
        shop_name := sn, shop_url := su, timestamp_utc := now } := rfl
  rw [hfe, h]
  rfl

/-- Witness for `c4_stub_record_fields` at a concrete listing URL. -/
theorem c4_stub_record_witness :
    Etsy.fetch_item Etsy.emptyEtsyPage "https://www.etsy.com/listing/123-x" "S" "SU" "T" =
      { id := "123", title := "", price := "", currency := "", availability := "",
        category := "", tags := "", url := "https://www.etsy.com/listing/123-x",
        image := "", description := "",
        shop_name := "S", shop_url := "SU", timestamp_utc := "T" } ∧
    ("123" : String) ≠ "" ∧
    (Wallapop.fetch_item_detail Wallapop.emptyWallapopPage
        "https://www.etsy.com/listing/123-x" "S" "SU" "T").map
      Wallapop.WallapopRow.id = some "" :=
  c4_stub_record_fields "https://www.etsy.com/listing/123-x" "S" "SU" "T" "123" (by decide)

/-- C8 (counterexample): Vinted discovery returns `list(seen_ids)`
WITHOUT sorting (modelled in insertion order; the script applies no
sort), so the returned sequence is not in sorted order: a page listing
item 9 before item 10 yields `["9", "10"]`, which is not
lexicographically sorted (`"10" < "9"`). -/
theorem c8_vinted_ids_not_sorted :
    (Vinted.collect_item_ids_with_browser unsortedMockPages).1 = ["9", "10"] ∧
    ¬ List.Sorted (fun a b : String => a ≤ b)
      (Vinted.collect_item_ids_with_browser unsortedMockPages).1 := by
  have hout : (Vinted.collect_item_ids_with_browser unsortedMockPages).1
      = ["9", "10"] := by decide
  refine ⟨hout, ?_⟩
  rw [hout]
  intro hs
  have h9 : ("9" : String) ≤ "10" := by
    have := List.sorted_cons.mp hs
    exact this.1 "10" (List.mem_singleton.mpr rfl)
  rw [String.le_iff_toList_le] at h9
  revert h9
  decide

theorem foldl_preserve {α β : Type} {P : β → Prop} {f : β → α → β}
    (hf : ∀ b a, P b → P (f b a)) :
    ∀ (l : List α) (init : β), P init → P (l.foldl f init)
  | [], _, h => h
  | x :: xs, init, h => foldl_preserve hf xs (f init x) (hf init x h)

theorem cond_append_nodup (us : List String) (n : Nat) (full : String)
    (hn : us.Nodup) :
    ((if (strContains full "/listing/" && !(decide (full ∈ us))) = true
      then (us ++ [full], n + 1) else (us, n)) : List String × Nat).1.Nodup := by
  split
  · next hcond =>
    rw [List.nodup_append]
    refine ⟨hn, List.nodup_singleton _, ?_⟩
    intro x hx hx'
    rw [List.mem_singleton] at hx'
    subst hx'
    simp only [Bool.and_eq_true, Bool.not_eq_true', decide_eq_false_iff_not] at hcond
    exact hcond.2 hx
  · exact hn

theorem etsyAddStep_nodup (origin : String) (acc : List String × Nat) (h : String)
    (hn : acc.1.Nodup) : (Etsy.etsyAddStep origin acc h).1.Nodup := by
  obtain ⟨us, n⟩ := acc
  dsimp only [Etsy.etsyAddStep]
  split
  · exact hn
  · exact cond_append_nodup us n _ hn

theorem etsyAddUrls_nodup (origin : String) (found urls : List String)
    (hn : urls.Nodup) : (Etsy.etsyAddUrls origin found urls).1.Nodup :=
  foldl_preserve (P := fun acc => acc.1.Nodup)
    (fun b a hb => etsyAddStep_nodup origin b a hb) found (urls, 0) hn

theorem etsyVariants_nodup (pages : String → Etsy.EtsyIndexPage) (origin : String) :
    ∀ (vs : List String) (url : String) (urls : List String) (cur : String),
      urls.Nodup → (Etsy.etsyVariants pages origin vs url urls cur).1.Nodup
  | [], _, _, _, hn => hn
  | v :: rest, url, urls, cur, hn => by
    rw [Etsy.etsyVariants]
    split
    · exact etsyVariants_nodup pages origin rest url urls cur hn
    · have hua := etsyAddUrls_nodup origin (pages v).anchors urls hn
      dsimp only
      split
      · exact hua
      · exact etsyVariants_nodup pages origin rest url _ v hua

theorem variants_or_keep_nodup (pages : String → Etsy.EtsyIndexPage)
    (origin : String) (c : Prop) [Decidable c] (vs : List String)
    (url1 cur url2 : String) (us : List String) (hn : us.Nodup) :
    (if c then Etsy.etsyVariants pages origin vs url1 us cur
     else (us, url2)).1.Nodup := by
  split
  · exact etsyVariants_nodup pages origin vs url1 us cur hn
  · exact hn

theorem etsyCollectBody_nodup (pages : String → Etsy.EtsyIndexPage)
    (origin shop_url : String) (page_num : Nat) (urls : List String)
    (shopName : String) (hn : urls.Nodup) :
    (Etsy.etsyCollectBody pages origin shop_url page_num urls shopName).2.1.Nodup := by
  dsimp only [Etsy.etsyCollectBody]
  exact variants_or_keep_nodup pages origin _ _ _ _ _ _
    (etsyAddUrls_nodup origin _ _ hn)

theorem etsyCollectGo_nodup (pages : String → Etsy.EtsyIndexPage)
    (origin shop_url : String) :
    ∀ (fuel page_num : Nat) (urls : List String) (shopName : String),
      urls.Nodup →
      (Etsy.etsyCollectGo pages origin shop_url fuel page_num urls shopName).2.Nodup
  | 0, _, _, _, hn => hn
  | fuel + 1, page_num, urls, shopName, hn => by
    rw [Etsy.etsyCollectGo]
    have hbody := etsyCollectBody_nodup pages origin shop_url page_num urls shopName hn
    split
    · exact hbody
    · split
      · exact hbody
      · exact etsyCollectGo_nodup pages origin shop_url fuel (page_num + 1) _ _ hbody

/-- C8 (amended claim): the Etsy (and Wallapop) discovery output is a
deduplicated list — each canonical query-stripped URL occurs exactly
once, regardless of relative/absolute href mixing — returned in
deterministic lexicographically sorted order (`sorted(urls)`); the
Vinted scanner deduplicates identically but returns `list(seen_ids)`
without sorting (counterexample above). -/
theorem c8_etsy_discovery_sorted_and_deduped (pages : String → Etsy.EtsyIndexPage)
    (origin shop_url : String) :
    (Etsy.collect_shop_item_urls pages origin shop_url).2.2.Nodup ∧
    List.Sorted (fun a b : String => a ≤ b)
      (Etsy.collect_shop_item_urls pages origin shop_url).2.2 := by
  unfold Etsy.collect_shop_item_urls
  constructor
  · exact (List.Perm.nodup_iff (List.perm_insertionSort _ _)).mpr
      (etsyCollectGo_nodup pages origin shop_url 50 1 [] "" (List.nodup_nil))
  · exact List.sorted_insertionSort _ _

/-- C10 (amended claim): the Etsy (and Vinted) runs get their
idempotence from `write_headers`, which clears the WHOLE sheet before
the data rows are written: after a run, the sheet is exactly the header
row, the new data block, and empty rows — no stale data row survives,
whatever the previous contents were.  `write_rows` itself never clears
trailing rows, and the Wallapop run only appends, leaving all previous
rows in place (counterexample above). -/
theorem c10_etsy_run_leaves_no_stale_rows (prev : Sheet) (items : List Etsy.EtsyRow) :
    ∃ m, Etsy.run_writes prev items =
      Etsy.HEADERS :: items.map Etsy.rowValues ++ List.replicate m ([] : List String) := by
  have hwh : Etsy.write_headers prev =
      Etsy.HEADERS :: List.replicate (prev.length - 1) ([] : List String) := by
    unfold Etsy.write_headers updateRange clearValues
    simp [List.map_const', List.drop_replicate]
  unfold Etsy.run_writes
  rw [hwh]
  by_cases hi : items.isEmpty = true
  · refine ⟨prev.length - 1, ?_⟩
    have hnil : items = [] := List.isEmpty_iff.mp hi
    subst hnil
    simp [Etsy.write_rows]
  · unfold Etsy.write_rows
    rw [if_neg hi]
    have hcap : ∃ K, Etsy.etsyEnsureCapacity
        (Etsy.HEADERS :: List.replicate (prev.length - 1) ([] : List String))
        (items.map Etsy.rowValues).length
        = Etsy.HEADERS :: List.replicate K ([] : List String) := by
      unfold Etsy.etsyEnsureCapacity
      split
      · refine ⟨(prev.length - 1) + ((((items.map Etsy.rowValues).length : Int) -
          (((Etsy.HEADERS :: List.replicate (prev.length - 1)
            ([] : List String)).length : Int) - 1)).toNat), ?_⟩
        rw [List.replicate_add]
        rfl
      · exact ⟨prev.length - 1, rfl⟩
    obtain ⟨K, hK⟩ := hcap
    rw [hK]
    refine ⟨K - (items.map Etsy.rowValues).length, ?_⟩
    unfold updateRange
    have h21 : 2 - 1 + (items.map Etsy.rowValues).length
        = (items.map Etsy.rowValues).length + 1 := by omega
    rw [h21]
    rw [List.drop_succ_cons, List.drop_replicate]
    rfl

end Automations
